import Mathlib

/-!
# Gear selector: a shallow embedding of `gear_selector.c`

The definitions below follow `src/gear_selector.h`, `src/gear_selector.c` and the
driver loop of `src/main.c`.

Modelling conventions.

* A `uint8_t` is a natural number; the only place where 8-bit arithmetic can wrap
  (`idx + 1`, `idx - 1` in `gear_selector_get_next_gear`) carries an explicit `% 256`.
* A `uint8_t x[MAX_COGS_F_OR_R]` array is a `List Nat`; slot `i` (for `0 ≤ i < 13`) holds
  `x.getD i 0`, which is how a C initialiser such as `{30, 38, 44}` fills the array.
  A read at an index outside `0..12` is undefined behaviour and is reported as `none`.
* An output parameter `gear_selection_t *output_gears` is modelled by passing the initial
  content of the storage in and returning the final content next to the result code.
* A `float` is a `FloatVal`: a rational number, one of the two infinities, or NaN.
  The two `float` operations of the program, the quotient of two cog sizes and the
  difference of two `float` values, round their exact result to binary32 (round to nearest,
  ties to even, gradual underflow, overflow to infinity), each operation being evaluated in
  `float`; comparisons are exact.
-/

set_option maxRecDepth 8192

namespace GearSelector

/-! ## Data model (`gear_selector.h`) -/

/-- Max allowed cogs on the front or rear. -/
def MAX_COGS_F_OR_R : Nat := 13

/-- The result codes of `gear_selector.h`. -/
inductive errors_t where
  | SUCCESS
  | ERR_INVALID_COG_LEN
  | ERR_COGS_NOT_SORTED
  | ERR_INVALID_RATIO
  | ERR_INVALID_GEAR
  | ERR_INVALID_COG
  deriving DecidableEq

open errors_t

/-- The drivetrain configuration: two cog arrays with their stated lengths. -/
structure drivetrain_config_t where
  front_cogs : List Nat
  front_cogs_len : Nat
  rear_cogs : List Nat
  rear_cogs_len : Nat
  deriving DecidableEq

/-- A physical gear combination: an index into each cog array. -/
structure gear_selection_t where
  front_cog_idx : Nat
  rear_cog_idx : Nat
  deriving DecidableEq

/-! ## Values of type `float` -/

/-- The values a C `float` expression can take in this program. -/
inductive FloatVal where
  | fin (q : ℚ)
  | pinf
  | ninf
  | nan
  deriving DecidableEq

namespace FloatVal

/-- Negation on `float` values. -/
def neg : FloatVal → FloatVal
  | fin a => fin (-a)
  | pinf => ninf
  | ninf => pinf
  | nan => nan

/-- The comparison `a < b` on `float` values; false whenever a NaN is involved. -/
def lt : FloatVal → FloatVal → Bool
  | fin a, fin b => decide (a < b)
  | nan, _ => false
  | _, nan => false
  | ninf, ninf => false
  | ninf, _ => true
  | _, ninf => false
  | pinf, _ => false
  | fin _, pinf => true

/-- The comparison `a <= b` on `float` values; false whenever a NaN is involved. -/
def le : FloatVal → FloatVal → Bool
  | fin a, fin b => decide (a ≤ b)
  | nan, _ => false
  | _, nan => false
  | ninf, _ => true
  | _, pinf => true
  | pinf, _ => false
  | fin _, ninf => false

end FloatVal

open FloatVal

/-! ## Rounding to binary32

Every `float` operation of the program (the quotient of two cog sizes, the difference of two
`float` values) delivers its exact result rounded to binary32, round to nearest with ties to
even. -/

/-- The power `2 ^ n` as a rational number. -/
def pow2 (n : Nat) : ℚ := ((2 ^ n : Nat) : ℚ)

/-- The binade of a positive `x`, searched downward from index `k`: the largest index `k`
with `2 ^ (k - 126) ≤ x`, or 0 when `x` is below `2 ^ (-125)`. A binary32 value in the binade
of index `k` is a multiple of `2 ^ (k - 149)`. -/
def ulp_index (x : ℚ) : Nat → Nat
  | 0 => 0
  | k + 1 => if pow2 (k + 1) * pow2 23 / pow2 149 ≤ x then k + 1 else ulp_index x k

/-- Rounding of a rational number to the nearest integer, ties to the even one. -/
def round_even (m : ℚ) : Int :=
  if m - (Int.floor m : ℚ) < 1 / 2 then Int.floor m
  else if 1 / 2 < m - (Int.floor m : ℚ) then Int.floor m + 1
  else if Int.floor m % 2 = 0 then Int.floor m else Int.floor m + 1

/-- The multiple of the unit in the last place of the binade of `x` that is nearest to `x`,
ties to the even multiple. -/
def rounded_value (x : ℚ) : ℚ :=
  (round_even (x / (pow2 (ulp_index x 253) / pow2 149)) : ℚ)
    * (pow2 (ulp_index x 253) / pow2 149)

/-- Rounding of a non-negative rational number to binary32, with gradual underflow and with
overflow to `+inf` when the rounded value reaches `2 ^ 128`. -/
def round32_nonneg (x : ℚ) : FloatVal :=
  if x = 0 then fin 0
  else if pow2 128 ≤ rounded_value x then pinf
  else fin (rounded_value x)

/-- Rounding of a rational number to binary32. -/
def round32 (x : ℚ) : FloatVal :=
  if x < 0 then (round32_nonneg (-x)).neg else round32_nonneg x

namespace FloatVal

/-- Subtraction `a - b` on `float` values: the exact difference rounded to binary32. -/
def sub : FloatVal → FloatVal → FloatVal
  | fin a, fin b => round32 (a - b)
  | nan, _ => nan
  | _, nan => nan
  | pinf, pinf => nan
  | ninf, ninf => nan
  | pinf, _ => pinf
  | ninf, _ => ninf
  | fin _, pinf => ninf
  | fin _, ninf => pinf

end FloatVal

/-- The expression `front / (float)rear` for two `uint8_t` cog sizes: a positive size over
zero is `+inf`, zero over zero is NaN, and otherwise the exact quotient is rounded to
binary32. -/
def cog_ratio (front rear : Nat) : FloatVal :=
  if rear = 0 then (if front = 0 then nan else pinf) else round32 ((front : ℚ) / (rear : ℚ))

/-- The placeholder `INVALID_RATIO (-1)` for a ratio that is not possible. -/
def INVALID_RATIO : FloatVal := fin (-1)

/-- An array read `cogs[idx]`; `none` when `idx` is outside the 13 slots of the array. -/
def read_cog (cogs : List Nat) (idx : Int) : Option Nat :=
  if 0 ≤ idx ∧ idx < (MAX_COGS_F_OR_R : Int) then some (cogs.getD idx.toNat 0) else none

/-! ## `validate_config` -/

/-- The loop `for (int i = 1; i < len; i++) if (cogs[i] < cogs[i - 1]) return ...`:
true when some iteration takes the early return. The indices stay below `len`, which the
caller has already checked to be at most 13. -/
def cogs_not_sorted (cogs : List Nat) (len : Nat) : Bool :=
  (List.range' 1 (len - 1)).any fun i => decide (cogs.getD i 0 < cogs.getD (i - 1) 0)

/-- Validate a `drivetrain_config_t` object. -/
def validate_config (config : drivetrain_config_t) : errors_t :=
  if config.front_cogs_len > MAX_COGS_F_OR_R ∨ config.rear_cogs_len > MAX_COGS_F_OR_R then
    ERR_INVALID_COG_LEN
  else if cogs_not_sorted config.front_cogs config.front_cogs_len then
    ERR_COGS_NOT_SORTED
  else if cogs_not_sorted config.rear_cogs config.rear_cogs_len then
    ERR_COGS_NOT_SORTED
  else
    SUCCESS

/-! ## `gear_selector_get_closest_under` -/

/-- The state of the search: `closest_ratio` and the content of `*output_gears`. -/
abbrev search_state := FloatVal × gear_selection_t

/-- The body of the inner loop for the pair `(i, j)`. -/
def search_body (config : drivetrain_config_t) (desired_ratio : FloatVal) (i j : Nat)
    (st : search_state) : Option search_state :=
  match read_cog config.front_cogs i, read_cog config.rear_cogs j with
  | some f, some r =>
    let ratio := cog_ratio f r
    if (desired_ratio.sub ratio).lt (desired_ratio.sub st.1) then
      if ratio.lt desired_ratio then
        some (ratio, { front_cog_idx := i, rear_cog_idx := j })
      else some st
    else some st
  | _, _ => none

/-- The inner loop `for (int j = 0; j < config->rear_cogs_len; j++)`. -/
def search_rear (config : drivetrain_config_t) (desired_ratio : FloatVal) (i : Nat)
    (st : search_state) : Option search_state :=
  (List.range config.rear_cogs_len).foldlM
    (fun st j => search_body config desired_ratio i j st) st

/-- The outer loop `for (int i = 0; i < config->front_cogs_len; i++)`. -/
def search_front (config : drivetrain_config_t) (desired_ratio : FloatVal)
    (st : search_state) : Option search_state :=
  (List.range config.front_cogs_len).foldlM
    (fun st i => search_rear config desired_ratio i st) st

/-- Retrieves the closest possible gear ratio without going over the desired one.
The argument `output_gears` is the content of the output storage before the call; the
result pairs the return code with the content of the storage on return. -/
def gear_selector_get_closest_under (config : drivetrain_config_t) (desired_ratio : FloatVal)
    (output_gears : gear_selection_t) : Option (errors_t × gear_selection_t) :=
  let ret_val := validate_config config
  if ret_val ≠ SUCCESS then some (ret_val, output_gears)
  else
    match read_cog config.front_cogs 0,
          read_cog config.rear_cogs ((config.rear_cogs_len : Int) - 1) with
    | some f0, some rl =>
      if desired_ratio.lt (cog_ratio f0 rl) then some ( ERR_INVALID_RATIO, output_gears)
      else
        match search_front config desired_ratio ( INVALID_RATIO, output_gears) with
        | some st => some (SUCCESS, st.2)
        | none => none
    | _, _ => none

/-! ## `gear_selector_get_next_gear` -/

/-- Given the current gears, retrieves the next gear change to get closer to the desired
ratio. `current_gears` and `output_gears` are distinct storage. -/
def gear_selector_get_next_gear (config : drivetrain_config_t) (desired_ratio : FloatVal)
    (current_gears : gear_selection_t) (output_gears : gear_selection_t) :
    Option (errors_t × gear_selection_t) :=
  match gear_selector_get_closest_under config desired_ratio output_gears with
  | none => none
  | some (ret_val, output_gears) =>
    if ret_val ≠ SUCCESS then some (ret_val, output_gears)
    else if desired_ratio.le (fin 0) then some ( ERR_INVALID_RATIO, output_gears)
    else if current_gears.front_cog_idx ≥ config.front_cogs_len ∨
        current_gears.rear_cog_idx ≥ config.rear_cogs_len then
      some (ERR_INVALID_GEAR, output_gears)
    else if output_gears ≠ current_gears then
      if output_gears.front_cog_idx ≠ current_gears.front_cog_idx then
        some (SUCCESS,
          { front_cog_idx :=
              if output_gears.front_cog_idx < current_gears.front_cog_idx then
                (current_gears.front_cog_idx + 256 - 1) % 256
              else (current_gears.front_cog_idx + 1) % 256,
            rear_cog_idx := current_gears.rear_cog_idx })
      else
        some (SUCCESS,
          { front_cog_idx := current_gears.front_cog_idx,
            rear_cog_idx :=
              if output_gears.rear_cog_idx < current_gears.rear_cog_idx then
                (current_gears.rear_cog_idx + 256 - 1) % 256
              else (current_gears.rear_cog_idx + 1) % 256 })
    else some (SUCCESS, output_gears)

/-! ## The driver of `main.c` -/

/-- The drivetrain set up in `main`. -/
def demo_config : drivetrain_config_t :=
  { front_cogs := [30, 38, 44], front_cogs_len := 3,
    rear_cogs := [16, 19, 23, 28], rear_cogs_len := 4 }

/-- The loop of `display_gear_steps` with `fuel` iterations left: `current_gears` is the
caller's selection, `out_gears` the local output storage, which keeps its content from one
call to the next. The result is the last result code, whether the loop was left through
the `break` taken when the result equals the current selection, and the final content of
`*current_gears`. -/
def gear_steps_loop (config : drivetrain_config_t) (desired_ratio : FloatVal) :
    Nat → gear_selection_t → gear_selection_t → Option (errors_t × Bool × gear_selection_t)
  | 0, current_gears, _ => some (SUCCESS, false, current_gears)
  | fuel + 1, current_gears, out_gears =>
    match gear_selector_get_next_gear config desired_ratio current_gears out_gears with
    | none => none
    | some (err, out_gears) =>
      if err ≠ SUCCESS then some (err, false, current_gears)
      else if current_gears = out_gears then some (SUCCESS, true, current_gears)
      else gear_steps_loop config desired_ratio fuel out_gears out_gears

/-- The steps of `display_gear_steps`: at most `front_cogs_len * rear_cogs_len` calls of
`gear_selector_get_next_gear`, each result fed back as the current selection. The argument
`out_gears` is the initial content of the uninitialised local of that name. -/
def display_gear_steps (config : drivetrain_config_t) (desired_ratio : FloatVal)
    (current_gears out_gears : gear_selection_t) :
    Option (errors_t × Bool × gear_selection_t) :=
  gear_steps_loop config desired_ratio (config.front_cogs_len * config.rear_cogs_len)
    current_gears out_gears

/-- A drivetrain with two chainrings and a single rear cog: ratios 30/15 = 2 and 45/15 = 3. -/
def two_ring_config : drivetrain_config_t :=
  { front_cogs := [30, 45], front_cogs_len := 2, rear_cogs := [15], rear_cogs_len := 1 }

/-- The `float` nearest to the literal `1.6` passed by `main`: 13421773 / 2^23. -/
def ratio_1_6 : FloatVal := fin (13421773 / 8388608)

/-! ## Specification vocabulary -/

/-- The ratio of a selection as `main` prints it:
`front_cogs[front_cog_idx] / (float)rear_cogs[rear_cog_idx]`. -/
def selection_ratio (config : drivetrain_config_t) (g : gear_selection_t) : FloatVal :=
  cog_ratio (config.front_cogs.getD g.front_cog_idx 0) (config.rear_cogs.getD g.rear_cog_idx 0)

/-- Both indices of a selection lie within the stated counts of the configuration. -/
def in_range (config : drivetrain_config_t) (g : gear_selection_t) : Prop :=
  g.front_cog_idx < config.front_cogs_len ∧ g.rear_cog_idx < config.rear_cogs_len

instance (config : drivetrain_config_t) (g : gear_selection_t) :
    Decidable (in_range config g) := by
  unfold in_range
  infer_instance

/-- Every rear cog within the stated count has a positive size. -/
def rear_cogs_positive (config : drivetrain_config_t) : Prop :=
  ∀ j, j < config.rear_cogs_len → 0 < config.rear_cogs.getD j 0

/-- One shift from `current` toward `target`: nothing when they are equal; otherwise the
front index moves by one when the front indices differ, else the rear index moves by one. -/
def shift_toward (current target : gear_selection_t) : gear_selection_t :=
  if target = current then target
  else if target.front_cog_idx ≠ current.front_cog_idx then
    { front_cog_idx :=
        if target.front_cog_idx > current.front_cog_idx
        then current.front_cog_idx + 1 else current.front_cog_idx - 1,
      rear_cog_idx := current.rear_cog_idx }
  else
    { front_cog_idx := current.front_cog_idx,
      rear_cog_idx :=
        if target.rear_cog_idx > current.rear_cog_idx
        then current.rear_cog_idx + 1 else current.rear_cog_idx - 1 }

/-- The number of index steps between two selections:
`|p.front - q.front| + |p.rear - q.rear|`. -/
def shift_distance (p q : gear_selection_t) : Nat :=
  (p.front_cog_idx - q.front_cog_idx) + (q.front_cog_idx - p.front_cog_idx) +
    ((p.rear_cog_idx - q.rear_cog_idx) + (q.rear_cog_idx - p.rear_cog_idx))

/-- A decreasing adjacent pair within the first `len` entries: `cogs[i] < cogs[i - 1]`
for some `1 ≤ i < len`. -/
def decreasing_pair (cogs : List Nat) (len : Nat) : Prop :=
  ∃ i, 1 ≤ i ∧ i < len ∧ cogs.getD i 0 < cogs.getD (i - 1) 0

/-- Repeated calls of `gear_selector_get_next_gear`, each result fed back as the current
selection and left in the output storage for the next call: the result code and the
selection after `n` calls, or the first error. -/
def next_gear_iterate (config : drivetrain_config_t) (desired_ratio : FloatVal) :
    Nat → gear_selection_t → gear_selection_t → Option (errors_t × gear_selection_t)
  | 0, current_gears, _ => some (SUCCESS, current_gears)
  | n + 1, current_gears, out_gears =>
    match gear_selector_get_next_gear config desired_ratio current_gears out_gears with
    | none => none
    | some (err, out_gears) =>
      if err ≠ SUCCESS then some (err, out_gears)
      else next_gear_iterate config desired_ratio n out_gears out_gears

/-- A configuration with one chainring and no rear cog at all. -/
def no_rear_config : drivetrain_config_t :=
  { front_cogs := [30], front_cogs_len := 1, rear_cogs := [], rear_cogs_len := 0 }

/-- A configuration whose smallest chainring has size zero, so that its smallest ratio is
0/16 = 0. -/
def zero_front_config : drivetrain_config_t :=
  { front_cogs := [0, 30], front_cogs_len := 2, rear_cogs := [16], rear_cogs_len := 1 }

/-- The `float` quotient `30 / (float)28`, the smallest ratio of the drivetrain of `main`:
4493897 / 2^22. -/
def ratio_30_28 : FloatVal := fin (4493897 / 4194304)

/-! ## Rounding to binary32: sign and monotonicity -/

theorem pow2_eq (n : Nat) : pow2 n = (2 : ℚ) ^ n := by
  unfold pow2
  push_cast
  rfl

theorem pow2_pos (n : Nat) : 0 < pow2 n := by
  rw [pow2_eq]
  positivity

theorem pow2_mono (m n : Nat) (h : m ≤ n) : pow2 m ≤ pow2 n := by
  rw [pow2_eq, pow2_eq]
  exact pow_le_pow_right₀ (by norm_num) h

theorem pow2_succ (n : Nat) : pow2 (n + 1) = 2 * pow2 n := by
  rw [pow2_eq, pow2_eq, pow_succ]
  ring

/-- The search for the binade returns an index whose threshold is at most `x`, unless it is
0, and every larger index up to the starting one has a threshold above `x`. -/
theorem ulp_index_spec (x : ℚ) (K : Nat) :
    ulp_index x K ≤ K ∧
    (0 < ulp_index x K → pow2 (ulp_index x K) * pow2 23 / pow2 149 ≤ x) ∧
    (∀ j, ulp_index x K < j → j ≤ K → x < pow2 j * pow2 23 / pow2 149) := by
  induction K with
  | zero =>
    refine ⟨le_refl _, fun h => ?_, fun j h1 h2 => ?_⟩
    · simp [ulp_index] at h
    · simp only [ulp_index] at h1
      omega
  | succ K ih =>
    unfold ulp_index
    by_cases hc : pow2 (K + 1) * pow2 23 / pow2 149 ≤ x
    · rw [if_pos hc]
      exact ⟨le_refl _, fun _ => hc, fun j h1 h2 => by omega⟩
    · rw [if_neg hc]
      refine ⟨by omega, ih.2.1, fun j h1 h2 => ?_⟩
      rcases Nat.eq_or_lt_of_le h2 with rfl | hlt
      · exact lt_of_not_le hc
      · exact ih.2.2 j h1 (by omega)

theorem round_even_bounds (m : ℚ) :
    Int.floor m ≤ round_even m ∧ round_even m ≤ Int.floor m + 1 := by
  unfold round_even
  split_ifs <;> constructor <;> omega

theorem round_even_int (n : Int) : round_even (n : ℚ) = n := by
  unfold round_even
  rw [Int.floor_intCast]
  simp

theorem round_even_mono (a b : ℚ) (h : a ≤ b) : round_even a ≤ round_even b := by
  have hfl := Int.floor_mono h
  rcases lt_or_eq_of_le hfl with hlt | heq
  · have h1 := (round_even_bounds a).2
    have h2 := (round_even_bounds b).1
    omega
  · unfold round_even
    rw [← heq]
    have hab : a - (Int.floor a : ℚ) ≤ b - (Int.floor a : ℚ) := by linarith
    split_ifs <;> first | omega | (exfalso; linarith)

theorem rounded_value_nonneg (x : ℚ) (hx : 0 ≤ x) : 0 ≤ rounded_value x := by
  unfold rounded_value
  have hu : 0 < pow2 (ulp_index x 253) / pow2 149 := div_pos (pow2_pos _) (pow2_pos _)
  have hm : (0 : ℚ) ≤ x / (pow2 (ulp_index x 253) / pow2 149) := div_nonneg hx hu.le
  have hr := round_even_mono 0 _ hm
  have h00 : round_even (0 : ℚ) = 0 := by
    have := round_even_int 0
    simpa using this
  rw [h00] at hr
  have : (0 : ℚ) ≤ (round_even (x / (pow2 (ulp_index x 253) / pow2 149)) : ℚ) := by
    exact_mod_cast hr
  positivity

/-- A non-negative exact result rounds to a non-negative `float` or to `+inf`. -/
theorem round32_sign (x : ℚ) (hx : 0 ≤ x) :
    round32 x = pinf ∨ ∃ v, 0 ≤ v ∧ round32 x = fin v := by
  unfold round32
  rw [if_neg (not_lt.mpr hx)]
  unfold round32_nonneg
  split_ifs with h0 h1
  · exact Or.inr ⟨0, le_refl _, rfl⟩
  · exact Or.inl rfl
  · exact Or.inr ⟨_, rounded_value_nonneg x hx, rfl⟩

theorem rounded_value_mono (x y : ℚ) (hxy : x ≤ y) :
    rounded_value x ≤ rounded_value y := by
  obtain ⟨hkx, hlx, hux⟩ := ulp_index_spec x 253
  obtain ⟨hky, hly, huy⟩ := ulp_index_spec y 253
  have hk : ulp_index x 253 ≤ ulp_index y 253 := by
    by_contra hcon
    have h1 := hlx (by omega)
    have h2 := huy (ulp_index x 253) (by omega) hkx
    linarith
  have hux0 : 0 < pow2 (ulp_index x 253) / pow2 149 := div_pos (pow2_pos _) (pow2_pos _)
  have huy0 : 0 < pow2 (ulp_index y 253) / pow2 149 := div_pos (pow2_pos _) (pow2_pos _)
  unfold rounded_value
  rcases Nat.eq_or_lt_of_le hk with heq | hlt
  · rw [← heq]
    have hm : x / (pow2 (ulp_index x 253) / pow2 149)
        ≤ y / (pow2 (ulp_index x 253) / pow2 149) :=
      div_le_div_of_nonneg_right hxy hux0.le
    have hr := round_even_mono _ _ hm
    have hr' : (round_even (x / (pow2 (ulp_index x 253) / pow2 149)) : ℚ) ≤
        (round_even (y / (pow2 (ulp_index x 253) / pow2 149)) : ℚ) := by exact_mod_cast hr
    exact mul_le_mul_of_nonneg_right hr' hux0.le
  · have hxT := hux (ulp_index x 253 + 1) (by omega) (by omega)
    have hyT := hly (by omega)
    have h149 := pow2_pos 149
    have e23 : pow2 23 = 2 ^ 23 := pow2_eq 23
    have hmx : x / (pow2 (ulp_index x 253) / pow2 149) ≤ ((2 ^ 24 : Int) : ℚ) := by
      rw [div_le_iff₀ hux0]
      rw [pow2_succ, e23] at hxT
      have : (2 : ℚ) * pow2 (ulp_index x 253) * 2 ^ 23 / pow2 149 =
          ((2 ^ 24 : Int) : ℚ) * (pow2 (ulp_index x 253) / pow2 149) := by
        push_cast
        ring
      rw [this] at hxT
      exact hxT.le
    have hrx := round_even_mono _ _ hmx
    rw [round_even_int] at hrx
    have hmy : ((2 ^ 23 : Int) : ℚ) ≤ y / (pow2 (ulp_index y 253) / pow2 149) := by
      rw [le_div_iff₀ huy0]
      rw [e23] at hyT
      have : pow2 (ulp_index y 253) * 2 ^ 23 / pow2 149 =
          ((2 ^ 23 : Int) : ℚ) * (pow2 (ulp_index y 253) / pow2 149) := by
        push_cast
        ring
      rw [this] at hyT
      exact hyT
    have hry := round_even_mono _ _ hmy
    rw [round_even_int] at hry
    have hrx' : (round_even (x / (pow2 (ulp_index x 253) / pow2 149)) : ℚ) ≤ 2 ^ 24 := by
      exact_mod_cast hrx
    have hry' : (2 : ℚ) ^ 23 ≤
        (round_even (y / (pow2 (ulp_index y 253) / pow2 149)) : ℚ) := by
      exact_mod_cast hry
    have hstep : pow2 (ulp_index x 253 + 1) ≤ pow2 (ulp_index y 253) := pow2_mono _ _ hlt
    rw [pow2_succ] at hstep
    calc (round_even (x / (pow2 (ulp_index x 253) / pow2 149)) : ℚ)
            * (pow2 (ulp_index x 253) / pow2 149)
        ≤ 2 ^ 24 * (pow2 (ulp_index x 253) / pow2 149) :=
          mul_le_mul_of_nonneg_right hrx' hux0.le
      _ = 2 ^ 23 * (2 * pow2 (ulp_index x 253) / pow2 149) := by ring
      _ ≤ 2 ^ 23 * (pow2 (ulp_index y 253) / pow2 149) := by
          apply mul_le_mul_of_nonneg_left _ (by positivity)
          exact div_le_div_of_nonneg_right hstep h149.le
      _ ≤ (round_even (y / (pow2 (ulp_index y 253) / pow2 149)) : ℚ)
            * (pow2 (ulp_index y 253) / pow2 149) :=
          mul_le_mul_of_nonneg_right hry' huy0.le

/-- Rounding to binary32 is monotone on non-negative exact results. -/
theorem round32_mono (x y : ℚ) (hx : 0 ≤ x) (hxy : x ≤ y) :
    (round32 x).le (round32 y) = true := by
  have hy : 0 ≤ y := le_trans hx hxy
  have hval := rounded_value_mono x y hxy
  have hvy := rounded_value_nonneg y hy
  unfold round32
  rw [if_neg (not_lt.mpr hx), if_neg (not_lt.mpr hy)]
  unfold round32_nonneg
  by_cases hx0 : x = 0
  · rw [if_pos hx0]
    by_cases hy0 : y = 0
    · rw [if_pos hy0]
      simp [FloatVal.le]
    · rw [if_neg hy0]
      split_ifs
      · rfl
      · simp only [FloatVal.le, decide_eq_true_eq]
        exact hvy
  · have hy0 : ¬ y = 0 := by
      intro h
      apply hx0
      linarith
    rw [if_neg hx0, if_neg hy0]
    split_ifs with h1 h2 h2
    · rfl
    · exact absurd (le_trans h1 hval) h2
    · rfl
    · simp only [FloatVal.le, decide_eq_true_eq]
      exact hval

/-- The quotient of two cog sizes is never negative. -/
theorem cog_ratio_sign (f r : Nat) :
    cog_ratio f r = pinf ∨ cog_ratio f r = nan ∨ ∃ v, 0 ≤ v ∧ cog_ratio f r = fin v := by
  unfold cog_ratio
  split_ifs
  · exact Or.inr (Or.inl rfl)
  · exact Or.inl rfl
  · rcases round32_sign ((f : ℚ) / (r : ℚ)) (by positivity) with h | h
    · exact Or.inl h
    · exact Or.inr (Or.inr h)

/-- A larger front cog over a smaller positive rear cog gives a `float` quotient that is at
least as large. -/
theorem cog_ratio_mono (f f' r r' : Nat) (hf : f ≤ f') (hr : r' ≤ r) (hpos : 0 < r') :
    (cog_ratio f r).le (cog_ratio f' r') = true := by
  unfold cog_ratio
  rw [if_neg (by omega), if_neg (by omega)]
  apply round32_mono
  · positivity
  · apply div_le_div₀
    · positivity
    · exact_mod_cast hf
    · exact_mod_cast hpos
    · exact_mod_cast hr

theorem le_not_lt (a b : FloatVal) (h : a.le b = true) : b.lt a = false := by
  cases a <;> cases b <;> simp_all [FloatVal.le, FloatVal.lt]

theorem not_lt_of_le_of_lt (a b d : FloatVal) (hab : a.le b = true) (hbd : b.lt d = true) :
    d.lt a = false := by
  cases a <;> cases b <;> cases d <;> simp_all [FloatVal.le, FloatVal.lt]
  linarith

/-! ## `validate_config` is characterised by its two checks -/

theorem cogs_not_sorted_iff (cogs : List Nat) (len : Nat) :
    cogs_not_sorted cogs len = true ↔ decreasing_pair cogs len := by
  unfold cogs_not_sorted decreasing_pair
  rw [List.any_eq_true]
  constructor
  · rintro ⟨i, hi, h⟩
    rw [List.mem_range'_1] at hi
    exact ⟨i, hi.1, by omega, by simpa using h⟩
  · rintro ⟨i, h1, h2, h⟩
    exact ⟨i, by rw [List.mem_range'_1]; omega, by simpa using h⟩

theorem decreasing_pair_congr (a b : List Nat) (len : Nat)
    (h : ∀ i, i < len → a.getD i 0 = b.getD i 0) :
    decreasing_pair a len ↔ decreasing_pair b len := by
  constructor
  · rintro ⟨i, h1, h2, h3⟩
    exact ⟨i, h1, h2, by rw [← h i h2, ← h (i - 1) (by omega)]; exact h3⟩
  · rintro ⟨i, h1, h2, h3⟩
    exact ⟨i, h1, h2, by rw [h i h2, h (i - 1) (by omega)]; exact h3⟩

theorem validate_config_eq (config : drivetrain_config_t) :
    validate_config config =
      if config.front_cogs_len > 13 ∨ config.rear_cogs_len > 13 then ERR_INVALID_COG_LEN
      else if cogs_not_sorted config.front_cogs config.front_cogs_len = true ∨
          cogs_not_sorted config.rear_cogs config.rear_cogs_len = true then ERR_COGS_NOT_SORTED
      else SUCCESS := by
  unfold validate_config MAX_COGS_F_OR_R
  split_ifs <;> simp_all

theorem validate_config_success_iff (config : drivetrain_config_t) :
    validate_config config = SUCCESS ↔
      config.front_cogs_len ≤ 13 ∧ config.rear_cogs_len ≤ 13 ∧
      ¬ decreasing_pair config.front_cogs config.front_cogs_len ∧
      ¬ decreasing_pair config.rear_cogs config.rear_cogs_len := by
  rw [validate_config_eq, ← cogs_not_sorted_iff, ← cogs_not_sorted_iff]
  split_ifs with h1 h2
  · simp; omega
  · simp; intro _ _ h; rcases h2 with h2 | h2 <;> simp_all
  · simp; push_neg at h1 h2; exact ⟨h1.1, h1.2, by simpa using h2.1, by simpa using h2.2⟩

/-- C6: `validate_config` returns `ERR_INVALID_COG_LEN` exactly when a stated length exceeds
13 (whatever the cog values are); otherwise it returns `ERR_COGS_NOT_SORTED` exactly when
some adjacent pair inside the stated front or rear length is decreasing; otherwise it
returns `SUCCESS`. Entries at or beyond the stated lengths do not influence the result, and
equal adjacent cogs are accepted. -/
theorem validate_config_characterised (config : drivetrain_config_t) :
    (validate_config config = ERR_INVALID_COG_LEN ↔
      (config.front_cogs_len > 13 ∨ config.rear_cogs_len > 13)) ∧
    (validate_config config = ERR_COGS_NOT_SORTED ↔
      ¬ (config.front_cogs_len > 13 ∨ config.rear_cogs_len > 13) ∧
      (decreasing_pair config.front_cogs config.front_cogs_len ∨
        decreasing_pair config.rear_cogs config.rear_cogs_len)) ∧
    (validate_config config = SUCCESS ↔
      ¬ (config.front_cogs_len > 13 ∨ config.rear_cogs_len > 13) ∧
      ¬ (decreasing_pair config.front_cogs config.front_cogs_len ∨
        decreasing_pair config.rear_cogs config.rear_cogs_len)) ∧
    (∀ other : drivetrain_config_t,
      other.front_cogs_len = config.front_cogs_len →
      other.rear_cogs_len = config.rear_cogs_len →
      (∀ i, i < config.front_cogs_len → other.front_cogs.getD i 0 = config.front_cogs.getD i 0) →
      (∀ i, i < config.rear_cogs_len → other.rear_cogs.getD i 0 = config.rear_cogs.getD i 0) →
      validate_config other = validate_config config) ∧
    validate_config { front_cogs := [30, 30, 44], front_cogs_len := 3,
                      rear_cogs := [16, 16], rear_cogs_len := 2 } = SUCCESS := by
  have key : ∀ c : drivetrain_config_t,
      (validate_config c = ERR_INVALID_COG_LEN ↔
        (c.front_cogs_len > 13 ∨ c.rear_cogs_len > 13)) ∧
      (validate_config c = ERR_COGS_NOT_SORTED ↔
        ¬ (c.front_cogs_len > 13 ∨ c.rear_cogs_len > 13) ∧
        (decreasing_pair c.front_cogs c.front_cogs_len ∨
          decreasing_pair c.rear_cogs c.rear_cogs_len)) ∧
      (validate_config c = SUCCESS ↔
        ¬ (c.front_cogs_len > 13 ∨ c.rear_cogs_len > 13) ∧
        ¬ (decreasing_pair c.front_cogs c.front_cogs_len ∨
          decreasing_pair c.rear_cogs c.rear_cogs_len)) := by
    intro c
    rw [validate_config_eq, ← cogs_not_sorted_iff, ← cogs_not_sorted_iff]
    split_ifs with h1 h2 <;> simp_all
  refine ⟨(key config).1, (key config).2.1, (key config).2.2, ?_, by decide⟩
  intro other hf hr hfc hrc
  have hd1 := decreasing_pair_congr other.front_cogs config.front_cogs _ hfc
  have hd2 := decreasing_pair_congr other.rear_cogs config.rear_cogs _ hrc
  have ho := key other
  have hc := key config
  rw [hf, hr, hd1, hd2] at ho
  cases hv : validate_config config with
  | SUCCESS => exact ho.2.2.mpr (hc.2.2.mp hv)
  | ERR_INVALID_COG_LEN => exact ho.1.mpr (hc.1.mp hv)
  | ERR_COGS_NOT_SORTED => exact ho.2.1.mpr (hc.2.1.mp hv)
  | ERR_INVALID_RATIO =>
    exfalso; rw [validate_config_eq] at hv; split_ifs at hv
  | ERR_INVALID_GEAR =>
    exfalso; rw [validate_config_eq] at hv; split_ifs at hv
  | ERR_INVALID_COG =>
    exfalso; rw [validate_config_eq] at hv; split_ifs at hv

/-- The characterisation of C6 applied to the drivetrain of `main`, which is accepted. -/
theorem validate_config_characterised_witness :
    validate_config demo_config = SUCCESS :=
  (validate_config_characterised demo_config).2.2.1.mpr (by
    refine ⟨by decide, ?_⟩
    rw [← cogs_not_sorted_iff, ← cogs_not_sorted_iff]
    decide)

/-! ## The search loops -/

/-- A loop-invariant rule for `for (k = 0; k < n; k++)` loops whose body may fail: if the
invariant holds initially and every iteration succeeds and re-establishes it, the loop
succeeds and the invariant holds at exit. -/
theorem foldlM_range_inv {σ : Type} (body : σ → Nat → Option σ) (I : Nat → σ → Prop)
    (n : Nat) (st : σ) (h0 : I 0 st)
    (hstep : ∀ k s, k < n → I k s → ∃ s', body s k = some s' ∧ I (k + 1) s') :
    ∃ s', (List.range n).foldlM body st = some s' ∧ I n s' := by
  induction n with
  | zero => exact ⟨st, by simp, h0⟩
  | succ n ih =>
    obtain ⟨s1, h1, hI1⟩ := ih (fun k s hk hI => hstep k s (by omega) hI)
    obtain ⟨s2, h2, hI2⟩ := hstep n s1 (by omega) hI1
    refine ⟨s2, ?_, hI2⟩
    rw [List.range_succ, List.foldlM_append, h1]
    simp [h2]

theorem read_cog_nat (cogs : List Nat) (i : Nat) (h : i < 13) :
    read_cog cogs (i : Int) = some (cogs.getD i 0) := by
  unfold read_cog MAX_COGS_F_OR_R
  rw [if_pos ⟨by omega, by omega⟩]
  simp

theorem search_body_total (config : drivetrain_config_t) (d : FloatVal) (i j : Nat)
    (hi : i < 13) (hj : j < 13) (st : search_state) :
    ∃ st', search_body config d i j st = some st' := by
  unfold search_body
  rw [read_cog_nat _ i hi, read_cog_nat _ j hj]
  dsimp only
  split_ifs <;> exact ⟨_, rfl⟩

theorem search_front_total (config : drivetrain_config_t) (d : FloatVal)
    (hf : config.front_cogs_len ≤ 13) (hr : config.rear_cogs_len ≤ 13) (st : search_state) :
    ∃ st', search_front config d st = some st' := by
  unfold search_front
  obtain ⟨s', h, -⟩ := foldlM_range_inv (fun st i => search_rear config d i st)
    (fun _ _ => True) config.front_cogs_len st trivial (by
      intro i s hi _
      unfold search_rear
      obtain ⟨s', h', -⟩ := foldlM_range_inv (fun st j => search_body config d i j st)
        (fun _ _ => True) config.rear_cogs_len s trivial (by
          intro j s hj _
          obtain ⟨s', h'⟩ := search_body_total config d i j (by omega) (by omega) s
          exact ⟨s', h', trivial⟩)
      exact ⟨s', h', trivial⟩)
  exact ⟨s', h⟩

/-- After a successful validation with at least one rear cog the call is the floor check
followed by the search, and it returns. -/
theorem closest_under_eq (config : drivetrain_config_t) (d : FloatVal) (o : gear_selection_t)
    (hv : validate_config config = SUCCESS) (hr : 1 ≤ config.rear_cogs_len) :
    ∃ st, search_front config d ( INVALID_RATIO, o) = some st ∧
      gear_selector_get_closest_under config d o =
        if d.lt (cog_ratio (config.front_cogs.getD 0 0)
            (config.rear_cogs.getD (config.rear_cogs_len - 1) 0)) then
          some ( ERR_INVALID_RATIO, o)
        else some (SUCCESS, st.2) := by
  have hlen := (validate_config_success_iff config).mp hv
  obtain ⟨st, hst⟩ := search_front_total config d hlen.1 hlen.2.1 ( INVALID_RATIO, o)
  refine ⟨st, hst, ?_⟩
  have h0 : read_cog config.front_cogs 0 = some (config.front_cogs.getD 0 0) :=
    read_cog_nat config.front_cogs 0 (by omega)
  have h1 : read_cog config.rear_cogs ((config.rear_cogs_len : Int) - 1) =
      some (config.rear_cogs.getD (config.rear_cogs_len - 1) 0) := by
    have := read_cog_nat config.rear_cogs (config.rear_cogs_len - 1) (by omega)
    rw [← this]
    congr 1
    omega
  unfold gear_selector_get_closest_under
  simp only [hv, ne_eq, not_true_eq_false, if_false, h0, h1, hst]

/-- C4: for a configuration with at least one rear cog (the front count plays no part, so
in particular with at least one front and one rear cog) the call returns, and its result
code is the validator's error when validation fails; otherwise it is
`ERR_INVALID_RATIO` exactly when the desired ratio is strictly below the `float` quotient
`front_cogs[0] / (float)rear_cogs[rear_cogs_len - 1]`, and `SUCCESS` otherwise. On the
drivetrain of `main`, a desired ratio of 1.0 gives `ERR_INVALID_RATIO`, as does the `float`
just below the quotient 30/28, while the quotient itself gives `SUCCESS`. -/
theorem closest_under_result_code (config : drivetrain_config_t) (desired_ratio : FloatVal)
    (output_gears : gear_selection_t) (hrear : 1 ≤ config.rear_cogs_len) :
    (∃ code out, gear_selector_get_closest_under config desired_ratio output_gears
        = some (code, out) ∧
      (validate_config config ≠ SUCCESS → code = validate_config config) ∧
      (validate_config config = SUCCESS →
        (code = ERR_INVALID_RATIO ↔
          desired_ratio.lt (cog_ratio (config.front_cogs.getD 0 0)
            (config.rear_cogs.getD (config.rear_cogs_len - 1) 0)) = true) ∧
        (code ≠ ERR_INVALID_RATIO → code = SUCCESS))) ∧
    gear_selector_get_closest_under demo_config (fin 1) output_gears
      = some ( ERR_INVALID_RATIO, output_gears) ∧
    cog_ratio 30 28 = ratio_30_28 ∧
    gear_selector_get_closest_under demo_config (fin (4493896 / 4194304)) output_gears
      = some ( ERR_INVALID_RATIO, output_gears) ∧
    gear_selector_get_closest_under demo_config ratio_30_28 output_gears
      = some (SUCCESS, output_gears) := by
  refine ⟨?_, by with_unfolding_all rfl, by with_unfolding_all rfl, by with_unfolding_all rfl,
    by with_unfolding_all rfl⟩
  by_cases hv : validate_config config = SUCCESS
  · obtain ⟨st, -, h⟩ := closest_under_eq config desired_ratio output_gears hv hrear
    by_cases hlt : desired_ratio.lt (cog_ratio (config.front_cogs.getD 0 0)
        (config.rear_cogs.getD (config.rear_cogs_len - 1) 0)) = true
    · rw [if_pos hlt] at h
      exact ⟨_, _, h, fun hn => absurd hv hn,
        fun _ => ⟨⟨fun _ => hlt, fun _ => rfl⟩, fun hn => absurd rfl hn⟩⟩
    · rw [if_neg hlt] at h
      exact ⟨_, _, h, fun hn => absurd hv hn,
        fun _ => ⟨⟨fun hc => (by cases hc), fun h => absurd h hlt⟩, fun _ => rfl⟩⟩
  · refine ⟨validate_config config, output_gears, ?_, fun _ => rfl, fun h => absurd h hv⟩
    unfold gear_selector_get_closest_under
    simp [hv]

/-- The result-code rule of C4 applied to the drivetrain of `main` with desired ratio 1.0. -/
theorem closest_under_result_code_witness :
    1 ≤ demo_config.rear_cogs_len ∧
    ∃ code out, gear_selector_get_closest_under demo_config (fin 1)
        { front_cog_idx := 0, rear_cog_idx := 0 } = some (code, out) ∧
      (validate_config demo_config ≠ SUCCESS → code = validate_config demo_config) ∧
      (validate_config demo_config = SUCCESS →
        (code = ERR_INVALID_RATIO ↔
          (fin 1).lt (cog_ratio (demo_config.front_cogs.getD 0 0)
            (demo_config.rear_cogs.getD (demo_config.rear_cogs_len - 1) 0)) = true) ∧
        (code ≠ ERR_INVALID_RATIO → code = SUCCESS)) :=
  ⟨by decide,
    (closest_under_result_code demo_config (fin 1) { front_cog_idx := 0, rear_cog_idx := 0 }
      (by decide)).1⟩

/-! ## `gear_selector_get_next_gear`: one step -/

theorem lt_zero_not_le_zero (d : FloatVal) (h : (fin 0).lt d = true) : d.le (fin 0) = false := by
  cases d with
  | fin q =>
    simp only [FloatVal.lt, decide_eq_true_eq] at h
    simp only [FloatVal.le, decide_eq_false_iff_not, not_le]
    exact h
  | pinf => rfl
  | ninf => simp [FloatVal.lt] at h
  | nan => rfl

/-- C8: single-step, front-first shifting. For a validated configuration, a positive desired
ratio whose closest-under call yields the target `t`, and an in-range current selection
different from `t`, the call returns `SUCCESS`; when the front indices differ the front
index of the current selection moves by one toward `t` and the rear index is kept, otherwise
the front index is kept and the rear index moves by one toward `t`. On the drivetrain of
`main` with desired ratio 1.6, starting at (1,3), the successive results are (0,3), (0,2),
(0,1). -/
theorem next_gear_single_step (config : drivetrain_config_t) (desired_ratio : FloatVal)
    (current_gears t output_gears : gear_selection_t)
    (hvalid : validate_config config = SUCCESS)
    (hpos : (fin 0).lt desired_ratio = true)
    (htarget : gear_selector_get_closest_under config desired_ratio output_gears
      = some (SUCCESS, t))
    (hfront : current_gears.front_cog_idx < config.front_cogs_len)
    (hrear : current_gears.rear_cog_idx < config.rear_cogs_len)
    (hne : current_gears ≠ t) :
    gear_selector_get_next_gear config desired_ratio current_gears output_gears =
      some (SUCCESS,
        if t.front_cog_idx ≠ current_gears.front_cog_idx then
          { front_cog_idx :=
              if t.front_cog_idx > current_gears.front_cog_idx
              then current_gears.front_cog_idx + 1 else current_gears.front_cog_idx - 1,
            rear_cog_idx := current_gears.rear_cog_idx }
        else
          { front_cog_idx := current_gears.front_cog_idx,
            rear_cog_idx :=
              if t.rear_cog_idx > current_gears.rear_cog_idx
              then current_gears.rear_cog_idx + 1 else current_gears.rear_cog_idx - 1 }) ∧
    gear_selector_get_next_gear demo_config ratio_1_6
      { front_cog_idx := 1, rear_cog_idx := 3 } output_gears
      = some (SUCCESS, { front_cog_idx := 0, rear_cog_idx := 3 }) ∧
    gear_selector_get_next_gear demo_config ratio_1_6
      { front_cog_idx := 0, rear_cog_idx := 3 } { front_cog_idx := 0, rear_cog_idx := 3 }
      = some (SUCCESS, { front_cog_idx := 0, rear_cog_idx := 2 }) ∧
    gear_selector_get_next_gear demo_config ratio_1_6
      { front_cog_idx := 0, rear_cog_idx := 2 } { front_cog_idx := 0, rear_cog_idx := 2 }
      = some (SUCCESS, { front_cog_idx := 0, rear_cog_idx := 1 }) := by
  refine ⟨?_, by with_unfolding_all rfl, by with_unfolding_all rfl, by with_unfolding_all rfl⟩
  have hlen := (validate_config_success_iff config).mp hvalid
  have hle := lt_zero_not_le_zero desired_ratio hpos
  have hne' : t ≠ current_gears := fun h => hne h.symm
  unfold gear_selector_get_next_gear
  rw [htarget]
  simp only [ne_eq, not_true_eq_false, if_false, hle, Bool.false_eq_true, ge_iff_le]
  rw [if_neg (by omega), if_pos hne']
  by_cases hfd : t.front_cog_idx = current_gears.front_cog_idx
  · have hrd : t.rear_cog_idx ≠ current_gears.rear_cog_idx := by
      intro h
      apply hne'
      cases t; cases current_gears
      simp_all
    simp only [hfd, not_true_eq_false, if_false]
    by_cases hlt : t.rear_cog_idx < current_gears.rear_cog_idx
    · rw [if_pos hlt, if_neg (by omega)]
      congr 3
      omega
    · rw [if_neg hlt, if_pos (by omega)]
      congr 3
      omega
  · simp only [hfd, not_false_eq_true, if_true]
    by_cases hlt : t.front_cog_idx < current_gears.front_cog_idx
    · rw [if_pos hlt, if_neg (by omega)]
      congr 3
      omega
    · rw [if_neg hlt, if_pos (by omega)]
      congr 3
      omega

/-- The single-step rule of C8 applied on the drivetrain of `main`: desired ratio 1.6,
current selection (1,3), target (0,1). -/
theorem next_gear_single_step_witness :
    validate_config demo_config = SUCCESS ∧ (fin 0).lt ratio_1_6 = true ∧
    gear_selector_get_closest_under demo_config ratio_1_6
      { front_cog_idx := 0, rear_cog_idx := 0 }
      = some (SUCCESS, { front_cog_idx := 0, rear_cog_idx := 1 }) ∧
    gear_selector_get_next_gear demo_config ratio_1_6 { front_cog_idx := 1, rear_cog_idx := 3 }
      { front_cog_idx := 0, rear_cog_idx := 0 }
      = some (SUCCESS, { front_cog_idx := 0, rear_cog_idx := 3 }) :=
  ⟨by decide, by with_unfolding_all decide, by with_unfolding_all rfl,
    (next_gear_single_step demo_config ratio_1_6 { front_cog_idx := 1, rear_cog_idx := 3 }
      { front_cog_idx := 0, rear_cog_idx := 1 } { front_cog_idx := 0, rear_cog_idx := 0 }
      (by decide) (by with_unfolding_all decide) (by with_unfolding_all rfl)
      (by decide) (by decide) (by decide)).1⟩

/-! ## Sorted cogs and the extreme ratios -/

theorem sorted_of_no_decreasing_pair (cogs : List Nat) (len : Nat)
    (h : ¬ decreasing_pair cogs len) (i k : Nat) (hik : i ≤ k) (hk : k < len) :
    cogs.getD i 0 ≤ cogs.getD k 0 := by
  induction k with
  | zero =>
    have : i = 0 := by omega
    rw [this]
  | succ k ih =>
    rcases Nat.eq_or_lt_of_le hik with rfl | hlt
    · exact le_refl _
    · have h1 := ih (by omega) (by omega)
      have h2 : cogs.getD k 0 ≤ cogs.getD (k + 1) 0 := by
        by_contra hcon
        exact h ⟨k + 1, by omega, hk, by simpa using hcon⟩
      exact le_trans h1 h2

/-! ## Desired ratios above every achievable ratio -/

/-! ## Desired ratios above every achievable ratio -/

/-- C5, as stated, fails on the drivetrain of `main`: the largest achievable ratio 44/16 is
below the desired ratio 5, and the call returns `SUCCESS` with the selection (2,0), not
`ERR_INVALID_RATIO`. -/
theorem closest_under_above_max_counterexample :
    validate_config demo_config = SUCCESS ∧
    (selection_ratio demo_config { front_cog_idx := 2, rear_cog_idx := 0 }).lt (fin 5) = true ∧
    gear_selector_get_closest_under demo_config (fin 5) { front_cog_idx := 0, rear_cog_idx := 0 }
      = some (SUCCESS, { front_cog_idx := 2, rear_cog_idx := 0 }) ∧
    ¬ ∃ out, gear_selector_get_closest_under demo_config (fin 5)
        { front_cog_idx := 0, rear_cog_idx := 0 } = some ( ERR_INVALID_RATIO, out) := by
  have h : gear_selector_get_closest_under demo_config (fin 5)
      { front_cog_idx := 0, rear_cog_idx := 0 }
      = some (SUCCESS, { front_cog_idx := 2, rear_cog_idx := 0 }) := by
    with_unfolding_all rfl
  refine ⟨by decide, by with_unfolding_all decide, h, ?_⟩
  rintro ⟨out, hout⟩
  rw [h] at hout
  cases hout

theorem rear_positive_of_first (config : drivetrain_config_t)
    (hvalid : validate_config config = SUCCESS) (h0 : 0 < config.rear_cogs.getD 0 0) :
    rear_cogs_positive config := by
  have hlen := (validate_config_success_iff config).mp hvalid
  intro j hj
  exact lt_of_lt_of_le h0
    (sorted_of_no_decreasing_pair _ _ hlen.2.2.2 0 j (Nat.zero_le _) hj)

/-- In a validated configuration with positive rear cogs the `float` ratio of every in-range
pair is at least that of `(0, rear_cogs_len - 1)` and at most that of
`(front_cogs_len - 1, 0)`. -/
theorem selection_ratio_bounds (config : drivetrain_config_t)
    (hv : validate_config config = SUCCESS) (hpos : rear_cogs_positive config)
    (q : gear_selection_t) (hq : in_range config q) :
    (selection_ratio config { front_cog_idx := 0, rear_cog_idx := config.rear_cogs_len - 1 }).le
        (selection_ratio config q) = true ∧
      (selection_ratio config q).le (selection_ratio config
        { front_cog_idx := config.front_cogs_len - 1, rear_cog_idx := 0 }) = true := by
  have hlen := (validate_config_success_iff config).mp hv
  obtain ⟨hqf, hqr⟩ := hq
  unfold selection_ratio
  constructor
  · apply cog_ratio_mono
    · exact sorted_of_no_decreasing_pair _ _ hlen.2.2.1 _ _ (Nat.zero_le _) hqf
    · exact sorted_of_no_decreasing_pair _ _ hlen.2.2.2 _ _ (by dsimp only; omega)
        (by dsimp only; omega)
    · exact hpos _ hqr
  · apply cog_ratio_mono
    · exact sorted_of_no_decreasing_pair _ _ hlen.2.2.1 _ _ (by dsimp only; omega)
        (by dsimp only; omega)
    · exact sorted_of_no_decreasing_pair _ _ hlen.2.2.2 _ _ (Nat.zero_le _) hqr
    · exact hpos _ (by dsimp only; omega)

/-- C5, amended: for a validated configuration with at least one rear cog, a desired ratio
greater than the largest achievable ratio `front_cogs[front_cogs_len - 1] / rear_cogs[0]`
makes the call return `SUCCESS`, not `ERR_INVALID_RATIO`; so it does on the drivetrain of
`main` with desired ratio 5, above the largest achievable ratio 44/16. -/
theorem closest_under_above_max (config : drivetrain_config_t) (desired_ratio : FloatVal)
    (output_gears : gear_selection_t)
    (hvalid : validate_config config = SUCCESS) (hrear : 1 ≤ config.rear_cogs_len)
    (habove : (selection_ratio config
      { front_cog_idx := config.front_cogs_len - 1, rear_cog_idx := 0 }).lt desired_ratio
        = true) :
    (∃ t, gear_selector_get_closest_under config desired_ratio output_gears
        = some (SUCCESS, t)) ∧
    (selection_ratio demo_config { front_cog_idx := 2, rear_cog_idx := 0 }).lt (fin 5)
      = true ∧
    (∃ t, gear_selector_get_closest_under demo_config (fin 5) output_gears
      = some (SUCCESS, t)) := by
  refine ⟨?_, by with_unfolding_all decide, ⟨_, by with_unfolding_all rfl⟩⟩
  have hlen := (validate_config_success_iff config).mp hvalid
  have h0 : 0 < config.rear_cogs.getD 0 0 := by
    by_contra hcon
    have hz : config.rear_cogs.getD 0 0 = 0 := by omega
    unfold selection_ratio cog_ratio at habove
    dsimp only at habove
    rw [if_pos hz] at habove
    split_ifs at habove <;> cases desired_ratio <;> simp [FloatVal.lt] at habove
  have hmono : (cog_ratio (config.front_cogs.getD 0 0)
      (config.rear_cogs.getD (config.rear_cogs_len - 1) 0)).le
      (selection_ratio config
        { front_cog_idx := config.front_cogs_len - 1, rear_cog_idx := 0 }) = true := by
    unfold selection_ratio
    apply cog_ratio_mono
    · by_cases hf : config.front_cogs_len = 0
      · rw [hf]
      · exact sorted_of_no_decreasing_pair _ _ hlen.2.2.1 _ _ (Nat.zero_le _)
          (by dsimp only; omega)
    · exact sorted_of_no_decreasing_pair _ _ hlen.2.2.2 _ _ (Nat.zero_le _) (by omega)
    · exact h0
  have hpass := not_lt_of_le_of_lt _ _ _ hmono habove
  obtain ⟨st, -, heq⟩ := closest_under_eq config desired_ratio output_gears hvalid hrear
  rw [hpass] at heq
  exact ⟨st.2, by simpa using heq⟩

/-- The amended C5 applied to the drivetrain of `main` with desired ratio 5. -/
theorem closest_under_above_max_witness :
    validate_config demo_config = SUCCESS ∧
    (selection_ratio demo_config
      { front_cog_idx := demo_config.front_cogs_len - 1, rear_cog_idx := 0 }).lt (fin 5)
        = true ∧
    ∃ t, gear_selector_get_closest_under demo_config (fin 5)
        { front_cog_idx := 0, rear_cog_idx := 0 } = some (SUCCESS, t) :=
  ⟨by decide, by with_unfolding_all decide,
    (closest_under_above_max demo_config (fin 5) { front_cog_idx := 0, rear_cog_idx := 0 }
      (by decide) (by decide) (by with_unfolding_all decide)).1⟩

/-! ## Behaviour at the boundary of the search

The theorems of this section evaluate the functions at concrete inputs where the desired
ratio coincides with an achievable ratio, or where the header and the implementation
disagree. -/

/-- C1 at a failing input: on `two_ring_config` with desired ratio 2.0 (exactly 30/15) and
output storage holding (1,0) before the call, the call returns `SUCCESS` and the storage
still holds (1,0), whose ratio 45/15 = 3 exceeds the desired ratio. -/
theorem closest_under_success_above_desired :
    validate_config two_ring_config = SUCCESS ∧
    gear_selector_get_closest_under two_ring_config (fin 2)
      { front_cog_idx := 1, rear_cog_idx := 0 }
      = some (SUCCESS, { front_cog_idx := 1, rear_cog_idx := 0 }) ∧
    (selection_ratio two_ring_config { front_cog_idx := 1, rear_cog_idx := 0 }).le (fin 2)
      = false := by
  refine ⟨by decide, by with_unfolding_all rfl, by with_unfolding_all decide⟩

/-- C2 at a failing input: on the drivetrain of `main` with desired ratio 2.0 the call
returns (2,2), that is 44/23, although the in-range pair (1,1), that is 38/19, has a ratio
equal to the desired ratio and strictly greater than 44/23. -/
theorem closest_under_skips_exact_match (output_gears : gear_selection_t) :
    gear_selector_get_closest_under demo_config (fin 2) output_gears
      = some (SUCCESS, { front_cog_idx := 2, rear_cog_idx := 2 }) ∧
    in_range demo_config { front_cog_idx := 1, rear_cog_idx := 1 } ∧
    (selection_ratio demo_config { front_cog_idx := 1, rear_cog_idx := 1 }).le (fin 2) = true ∧
    (selection_ratio demo_config { front_cog_idx := 2, rear_cog_idx := 2 }).lt
      (selection_ratio demo_config { front_cog_idx := 1, rear_cog_idx := 1 }) = true := by
  refine ⟨by with_unfolding_all rfl, by decide, by with_unfolding_all decide,
    by with_unfolding_all decide⟩

/-- C3 at a failing input: on `two_ring_config` with desired ratio 2.0 and output storage
holding (7,7) before the call, the call returns `SUCCESS` and the storage still holds (7,7),
which is outside the configuration's counts 2 and 1. -/
theorem closest_under_success_out_of_range :
    validate_config two_ring_config = SUCCESS ∧
    gear_selector_get_closest_under two_ring_config (fin 2)
      { front_cog_idx := 7, rear_cog_idx := 7 }
      = some (SUCCESS, { front_cog_idx := 7, rear_cog_idx := 7 }) ∧
    ¬ in_range two_ring_config { front_cog_idx := 7, rear_cog_idx := 7 } := by
  refine ⟨by decide, by with_unfolding_all rfl, by decide⟩

/-- C7 at a failing input: on `two_ring_config` with desired ratio 2.0 the closest-under
call returns `SUCCESS` with whatever its output storage held; with storage (7,7) this is
t = (7,7), and the next-gear call with current selection t fails with `ERR_INVALID_GEAR`
for every content of its own output storage. With storage (1,0) it is t = (1,0), in range,
and the next-gear call with current selection t and fresh output storage (0,0) returns
(0,0), not t. -/
theorem next_gear_not_fixed_point (output_gears : gear_selection_t) :
    gear_selector_get_closest_under two_ring_config (fin 2)
      { front_cog_idx := 7, rear_cog_idx := 7 }
      = some (SUCCESS, { front_cog_idx := 7, rear_cog_idx := 7 }) ∧
    gear_selector_get_next_gear two_ring_config (fin 2)
      { front_cog_idx := 7, rear_cog_idx := 7 } output_gears
      = some (ERR_INVALID_GEAR, output_gears) ∧
    gear_selector_get_closest_under two_ring_config (fin 2)
      { front_cog_idx := 1, rear_cog_idx := 0 }
      = some (SUCCESS, { front_cog_idx := 1, rear_cog_idx := 0 }) ∧
    gear_selector_get_next_gear two_ring_config (fin 2)
      { front_cog_idx := 1, rear_cog_idx := 0 } { front_cog_idx := 0, rear_cog_idx := 0 }
      = some (SUCCESS, { front_cog_idx := 0, rear_cog_idx := 0 }) := by
  refine ⟨by with_unfolding_all rfl, by with_unfolding_all rfl, by with_unfolding_all rfl,
    by with_unfolding_all rfl⟩

/-- C9 at a failing input: on the drivetrain of `main` with desired ratio 1.6 the target is
(0,1); from the current selection (1,3), which differs from it in both indices, the call
returns (0,3): the front index moved and the rear index was kept, where the header's
rear-first rule gives (1,2). -/
theorem next_gear_moves_front_first (output_gears : gear_selection_t) :
    gear_selector_get_closest_under demo_config ratio_1_6 output_gears
      = some (SUCCESS, { front_cog_idx := 0, rear_cog_idx := 1 }) ∧
    gear_selector_get_next_gear demo_config ratio_1_6
      { front_cog_idx := 1, rear_cog_idx := 3 } output_gears
      = some (SUCCESS, { front_cog_idx := 0, rear_cog_idx := 3 }) ∧
    gear_selector_get_next_gear demo_config ratio_1_6
      { front_cog_idx := 1, rear_cog_idx := 3 } output_gears
      ≠ some (SUCCESS, { front_cog_idx := 1, rear_cog_idx := 2 }) := by
  have h : gear_selector_get_next_gear demo_config ratio_1_6
      { front_cog_idx := 1, rear_cog_idx := 3 } output_gears
      = some (SUCCESS, { front_cog_idx := 0, rear_cog_idx := 3 }) := by
    with_unfolding_all rfl
  refine ⟨by with_unfolding_all rfl, h, ?_⟩
  rw [h]
  decide

/-- C10 at a failing input: on `two_ring_config` with desired ratio 2.0 the closest-under
call succeeds for every content of its output storage, and the starting selection (1,0) is
in range; with the local output storage holding (7,7), the first call of the iteration
returns (2,0), which is out of range, and the second call fails with `ERR_INVALID_GEAR`, so
the iteration ends in an error and not in a fixed point. -/
theorem gear_steps_no_fixed_point (output_gears : gear_selection_t) :
    validate_config two_ring_config = SUCCESS ∧
    in_range two_ring_config { front_cog_idx := 1, rear_cog_idx := 0 } ∧
    gear_selector_get_closest_under two_ring_config (fin 2) output_gears
      = some (SUCCESS, output_gears) ∧
    gear_selector_get_next_gear two_ring_config (fin 2)
      { front_cog_idx := 1, rear_cog_idx := 0 } { front_cog_idx := 7, rear_cog_idx := 7 }
      = some (SUCCESS, { front_cog_idx := 2, rear_cog_idx := 0 }) ∧
    ¬ in_range two_ring_config { front_cog_idx := 2, rear_cog_idx := 0 } ∧
    gear_selector_get_next_gear two_ring_config (fin 2)
      { front_cog_idx := 2, rear_cog_idx := 0 } { front_cog_idx := 2, rear_cog_idx := 0 }
      = some (ERR_INVALID_GEAR, { front_cog_idx := 2, rear_cog_idx := 0 }) ∧
    display_gear_steps two_ring_config (fin 2)
      { front_cog_idx := 1, rear_cog_idx := 0 } { front_cog_idx := 7, rear_cog_idx := 7 }
      = some (ERR_INVALID_GEAR, false, { front_cog_idx := 2, rear_cog_idx := 0 }) := by
  refine ⟨by decide, by decide, by with_unfolding_all rfl, by with_unfolding_all rfl,
    by decide, by with_unfolding_all rfl, by with_unfolding_all rfl⟩

/-! ## Shifting toward a fixed target

The theorems of this section assume that the inner closest-under call returns `SUCCESS`
with one and the same in-range target for every content of the output storage, and show
that this target is then a fixed point of `gear_selector_get_next_gear` and that the
iteration of `display_gear_steps` reaches it. -/

/-- The result of `gear_selector_get_next_gear` once the inner closest-under call has
returned `SUCCESS` with target `t`, for a desired ratio that is not `<= 0` and an in-range
current selection in a validated configuration: one shift toward `t`. -/
theorem next_gear_eq_shift (config : drivetrain_config_t) (desired_ratio : FloatVal)
    (current_gears t output_gears : gear_selection_t)
    (hv : validate_config config = SUCCESS)
    (hle : desired_ratio.le (fin 0) = false)
    (htarget : gear_selector_get_closest_under config desired_ratio output_gears
      = some (SUCCESS, t))
    (hcur : in_range config current_gears) :
    gear_selector_get_next_gear config desired_ratio current_gears output_gears =
      some (SUCCESS, shift_toward current_gears t) := by
  have hlen := (validate_config_success_iff config).mp hv
  obtain ⟨hfront, hrear⟩ := hcur
  unfold gear_selector_get_next_gear shift_toward
  rw [htarget]
  simp only [ne_eq, not_true_eq_false, if_false, hle, Bool.false_eq_true, ge_iff_le]
  rw [if_neg (by omega)]
  by_cases hne : t = current_gears
  · rw [if_neg (not_not.mpr hne), if_pos hne]
  · rw [if_pos hne, if_neg hne]
    by_cases hfd : t.front_cog_idx = current_gears.front_cog_idx
    · simp only [hfd, not_true_eq_false, if_false]
      by_cases hlt : t.rear_cog_idx < current_gears.rear_cog_idx
      · rw [if_pos hlt, if_neg (by omega)]
        congr 3
        omega
      · have hrd : t.rear_cog_idx ≠ current_gears.rear_cog_idx := by
          intro h
          apply hne
          cases t; cases current_gears
          simp_all
        rw [if_neg hlt, if_pos (by omega)]
        congr 3
        omega
    · simp only [hfd, not_false_eq_true, if_true]
      by_cases hlt : t.front_cog_idx < current_gears.front_cog_idx
      · rw [if_pos hlt, if_neg (by omega)]
        congr 3
        omega
      · rw [if_neg hlt, if_pos (by omega)]
        congr 3
        omega

theorem shift_toward_self (t : gear_selection_t) : shift_toward t t = t := by
  unfold shift_toward
  rw [if_pos rfl]

theorem shift_toward_in_range (config : drivetrain_config_t) (c t : gear_selection_t)
    (hc : in_range config c) (ht : in_range config t) : in_range config (shift_toward c t) := by
  unfold in_range at *
  unfold shift_toward
  split_ifs <;> first | omega | (dsimp only; omega)

theorem shift_toward_distance (c t : gear_selection_t) (hne : c ≠ t) :
    shift_toward c t ≠ c ∧ shift_distance (shift_toward c t) t + 1 = shift_distance c t := by
  cases c with
  | mk a b =>
    cases t with
    | mk x y =>
      have hab : ¬ (x = a ∧ y = b) := by
        rintro ⟨rfl, rfl⟩
        exact hne rfl
      unfold shift_toward shift_distance
      simp only [gear_selection_t.mk.injEq, ne_eq]
      split_ifs <;> simp only [gear_selection_t.mk.injEq] <;> omega

/-- With a target `t` that every closest-under call returns, a positive finite desired
ratio and an in-range starting selection, the loop of `display_gear_steps` leaves through
its fixed-point exit with the current selection equal to `t`, provided it may make more
calls than the number of index steps between the start and `t`. -/
theorem gear_steps_loop_reaches_target (config : drivetrain_config_t) (d : ℚ)
    (t : gear_selection_t) (hv : validate_config config = SUCCESS) (hd : 0 < d)
    (ht : in_range config t)
    (htarget : ∀ o, gear_selector_get_closest_under config (fin d) o = some (SUCCESS, t))
    (fuel : Nat) (c o : gear_selection_t) (hc : in_range config c)
    (hfuel : shift_distance c t < fuel) :
    gear_steps_loop config (fin d) fuel c o = some (SUCCESS, true, t) := by
  have hle : (fin d).le (fin 0) = false := by
    simp only [FloatVal.le, decide_eq_false_iff_not, not_le]
    exact hd
  induction fuel generalizing c o with
  | zero => omega
  | succ fuel ih =>
    unfold gear_steps_loop
    rw [next_gear_eq_shift config (fin d) c t o hv hle (htarget o) hc]
    dsimp only
    by_cases hct : c = t
    · subst hct
      rw [shift_toward_self]
      simp
    · have hs := shift_toward_distance c t hct
      rw [if_neg (by simp), if_neg (fun h => hs.1 h.symm)]
      exact ih _ _ (shift_toward_in_range config c t hc ht) (by omega)

theorem shift_distance_lt_mul (config : drivetrain_config_t) (c t : gear_selection_t)
    (hc : in_range config c) (ht : in_range config t) :
    shift_distance c t < config.front_cogs_len * config.rear_cogs_len := by
  unfold in_range at hc ht
  unfold shift_distance
  obtain ⟨n, hn⟩ : ∃ n, config.front_cogs_len = n + 1 := ⟨config.front_cogs_len - 1, by omega⟩
  obtain ⟨m, hm⟩ : ∃ m, config.rear_cogs_len = m + 1 := ⟨config.rear_cogs_len - 1, by omega⟩
  rw [hn, hm] at hc ht ⊢
  have : (n + 1) * (m + 1) = n * m + n + m + 1 := by ring
  rw [this]
  have := Nat.zero_le (n * m)
  omega

/-- Fixed point and convergence for a target `t` that every closest-under call returns:
`gear_selector_get_next_gear` called with current selection `t` returns `t`, and from every
in-range start `display_gear_steps` ends at `t` through its fixed-point exit within its cap
of `front_cogs_len * rear_cogs_len` calls. -/
theorem display_gear_steps_reaches_target (config : drivetrain_config_t) (d : ℚ)
    (t : gear_selection_t) (hv : validate_config config = SUCCESS) (hd : 0 < d)
    (ht : in_range config t)
    (htarget : ∀ o, gear_selector_get_closest_under config (fin d) o = some (SUCCESS, t)) :
    (∀ o, gear_selector_get_next_gear config (fin d) t o = some (SUCCESS, t)) ∧
    (∀ c o, in_range config c →
      display_gear_steps config (fin d) c o = some (SUCCESS, true, t)) := by
  have hle : (fin d).le (fin 0) = false := by
    simp only [FloatVal.le, decide_eq_false_iff_not, not_le]
    exact hd
  refine ⟨?_, ?_⟩
  · intro o
    rw [next_gear_eq_shift config (fin d) t t o hv hle (htarget o) ht, shift_toward_self]
  · intro c o hc
    unfold display_gear_steps
    exact gear_steps_loop_reaches_target config d t hv hd ht htarget _ c o hc
      (shift_distance_lt_mul config c t hc ht)

/-! ## What a call leaves in the output storage -/

/-- A call that does not return `SUCCESS` returns one of the validator's errors or
`ERR_INVALID_RATIO`, and hands the output storage back as it received it. -/
theorem closest_under_failure (config : drivetrain_config_t) (d : FloatVal)
    (o out : gear_selection_t) (code : errors_t)
    (h : gear_selector_get_closest_under config d o = some (code, out))
    (hne : code ≠ SUCCESS) :
    out = o ∧ (code = ERR_INVALID_COG_LEN ∨ code = ERR_COGS_NOT_SORTED ∨
      code = ERR_INVALID_RATIO) := by
  unfold gear_selector_get_closest_under at h
  dsimp only at h
  by_cases hv : validate_config config = SUCCESS
  · rw [if_neg (not_not.mpr hv)] at h
    split at h
    · split_ifs at h
      · cases h
        exact ⟨rfl, Or.inr (Or.inr rfl)⟩
      · split at h
        · cases h
          exact absurd rfl hne
        · cases h
    · cases h
  · rw [if_pos hv] at h
    cases h
    refine ⟨rfl, ?_⟩
    have hc := validate_config_eq config
    split_ifs at hc with h1 h2
    · exact Or.inl hc
    · exact Or.inr (Or.inl hc)
    · exact absurd hc hv

/-- A call that returns `SUCCESS` has passed validation with at least one rear cog, has
passed the floor check, and returns what the search left in the output storage. -/
theorem closest_under_success (config : drivetrain_config_t) (d : FloatVal)
    (o t : gear_selection_t)
    (h : gear_selector_get_closest_under config d o = some (SUCCESS, t)) :
    validate_config config = SUCCESS ∧ 1 ≤ config.rear_cogs_len ∧
      d.lt (cog_ratio (config.front_cogs.getD 0 0)
        (config.rear_cogs.getD (config.rear_cogs_len - 1) 0)) = false ∧
      ∃ st, search_front config d ( INVALID_RATIO, o) = some st ∧ st.2 = t := by
  have hv : validate_config config = SUCCESS := by
    by_contra hv
    unfold gear_selector_get_closest_under at h
    dsimp only at h
    rw [if_pos hv] at h
    simp only [Option.some.injEq, Prod.mk.injEq] at h
    exact hv h.1
  have hr : 1 ≤ config.rear_cogs_len := by
    by_contra hr
    have hz : config.rear_cogs_len = 0 := by omega
    unfold gear_selector_get_closest_under at h
    dsimp only at h
    rw [if_neg (not_not.mpr hv), hz] at h
    have : read_cog config.rear_cogs (((0 : Nat) : Int) - 1) = none := by
      unfold read_cog
      rw [if_neg (by omega)]
    rw [this] at h
    split at h <;> simp_all
  obtain ⟨st, hst, heq⟩ := closest_under_eq config d o hv hr
  rw [heq] at h
  split_ifs at h with hlt
  · simp only [Option.some.injEq, Prod.mk.injEq] at h
    exact absurd h.1 (by decide)
  · simp only [Option.some.injEq, Prod.mk.injEq, true_and] at h
    exact ⟨hv, hr, by simpa using hlt, st, hst, h⟩

theorem search_body_keep (config : drivetrain_config_t) (d : FloatVal) (i j : Nat)
    (hi : i < 13) (hj : j < 13) (st : search_state)
    (h : (selection_ratio config { front_cog_idx := i, rear_cog_idx := j }).lt d = false) :
    search_body config d i j st = some st := by
  unfold selection_ratio at h
  dsimp only at h
  unfold search_body
  rw [read_cog_nat _ i hi, read_cog_nat _ j hj]
  dsimp only
  rw [h]
  simp

/-- With no in-range pair strictly below the desired ratio, the search leaves its state as
it found it, whatever the desired ratio and the cog sizes are. -/
theorem search_front_keep (config : drivetrain_config_t) (d : FloatVal)
    (hf13 : config.front_cogs_len ≤ 13) (hr13 : config.rear_cogs_len ≤ 13)
    (hno : ∀ q, in_range config q → (selection_ratio config q).lt d = false)
    (st : search_state) :
    search_front config d st = some st := by
  unfold search_front
  obtain ⟨s', h, hs⟩ := foldlM_range_inv (fun st i => search_rear config d i st)
    (fun _ s => s = st) config.front_cogs_len st rfl (by
      intro i s hi hs
      unfold search_rear
      obtain ⟨s', h', hs'⟩ := foldlM_range_inv (fun st j => search_body config d i j st)
        (fun _ s => s = st) config.rear_cogs_len s hs (by
          intro j s hj hs
          exact ⟨s, search_body_keep config d i j (by omega) (by omega) s
            (hno _ ⟨hi, hj⟩), hs⟩)
      exact ⟨s', h', hs'⟩)
  rw [h, hs]

/-! ## What the search writes

Whatever the rounding does, the search writes only in-range pairs whose `float` ratio is
strictly below the desired ratio. -/

theorem search_body_written (config : drivetrain_config_t) (d : FloatVal) (i j : Nat)
    (hi : i < 13) (hj : j < 13) (st : search_state) :
    search_body config d i j st = some st ∨
    (search_body config d i j st =
        some (selection_ratio config { front_cog_idx := i, rear_cog_idx := j },
          { front_cog_idx := i, rear_cog_idx := j }) ∧
      (selection_ratio config { front_cog_idx := i, rear_cog_idx := j }).lt d = true) := by
  unfold search_body selection_ratio
  rw [read_cog_nat _ i hi, read_cog_nat _ j hj]
  dsimp only
  split_ifs with h1 h2
  · exact Or.inr ⟨rfl, h2⟩
  · exact Or.inl rfl
  · exact Or.inl rfl

/-- The search ends either in its initial state or with an in-range pair in the output,
whose `float` ratio is the recorded closest ratio and is strictly below the desired ratio. -/
theorem search_front_written (config : drivetrain_config_t) (d : FloatVal)
    (o : gear_selection_t) (hf13 : config.front_cogs_len ≤ 13)
    (hr13 : config.rear_cogs_len ≤ 13) :
    ∃ st, search_front config d ( INVALID_RATIO, o) = some st ∧
      (st = ( INVALID_RATIO, o) ∨
        (in_range config st.2 ∧ st.1 = selection_ratio config st.2 ∧
          (selection_ratio config st.2).lt d = true)) := by
  unfold search_front
  exact foldlM_range_inv (fun st i => search_rear config d i st)
    (fun _ s => s = ( INVALID_RATIO, o) ∨
      (in_range config s.2 ∧ s.1 = selection_ratio config s.2 ∧
        (selection_ratio config s.2).lt d = true))
    config.front_cogs_len ( INVALID_RATIO, o) (Or.inl rfl) (by
      intro i s hi hs
      unfold search_rear
      exact foldlM_range_inv (fun st j => search_body config d i j st)
        (fun _ s => s = ( INVALID_RATIO, o) ∨
          (in_range config s.2 ∧ s.1 = selection_ratio config s.2 ∧
            (selection_ratio config s.2).lt d = true))
        config.rear_cogs_len s hs (by
          intro j s hj hs
          rcases search_body_written config d i j (by omega) (by omega) s with h | ⟨h, hlt⟩
          · exact ⟨s, h, hs⟩
          · exact ⟨_, h, Or.inr ⟨⟨hi, hj⟩, rfl, hlt⟩⟩))

/-- A call that returns `SUCCESS` either has left the output storage as it was, or has
written an in-range selection whose `float` ratio is strictly below the desired ratio. -/
theorem closest_under_written (config : drivetrain_config_t) (d : FloatVal)
    (o t : gear_selection_t)
    (h : gear_selector_get_closest_under config d o = some (SUCCESS, t)) :
    t = o ∨ (in_range config t ∧ (selection_ratio config t).lt d = true) := by
  obtain ⟨hv, -, -, st, hst, rfl⟩ := closest_under_success config d o t h
  have hlen := (validate_config_success_iff config).mp hv
  obtain ⟨st', hst', hinv⟩ := search_front_written config d o hlen.1 hlen.2.1
  rw [hst] at hst'
  cases hst'
  rcases hinv with h1 | ⟨h1, -, h3⟩
  · left
    rw [h1]
  · exact Or.inr ⟨h1, h3⟩

theorem cog_ratio_not_lt_nonpos (f r : Nat) (d : FloatVal) (hd : d.le (fin 0) = true) :
    (cog_ratio f r).lt d = false := by
  rcases cog_ratio_sign f r with h | h | ⟨v, hv, h⟩
  · rw [h]
    cases d <;> rfl
  · rw [h]
    cases d <;> rfl
  · rw [h]
    cases d with
    | fin q =>
      simp only [FloatVal.le, decide_eq_true_eq] at hd
      simp only [FloatVal.lt, decide_eq_false_iff_not, not_lt]
      linarith
    | pinf => simp [FloatVal.le] at hd
    | ninf => rfl
    | nan => simp [FloatVal.le] at hd

/-- For a desired ratio that is `<= 0`, a call that returns `SUCCESS` has not written the
output storage. -/
theorem closest_under_nonpos_keeps (config : drivetrain_config_t) (d : FloatVal)
    (o t : gear_selection_t) (hd : d.le (fin 0) = true)
    (h : gear_selector_get_closest_under config d o = some (SUCCESS, t)) : t = o := by
  obtain ⟨hv, -, -, st, hst, rfl⟩ := closest_under_success config d o t h
  have hlen := (validate_config_success_iff config).mp hv
  rw [search_front_keep config d hlen.1 hlen.2.1
    (fun q _ => cog_ratio_not_lt_nonpos _ _ d hd)] at hst
  cases hst
  rfl

/-! ## Result codes and output of `gear_selector_get_next_gear` on failure -/

/-- C11: when the inner closest-under call returns `SUCCESS` and the desired ratio is
positive, `gear_selector_get_next_gear` returns, and its code is `ERR_INVALID_GEAR` exactly
when the current front index is at least `front_cogs_len` or the current rear index is at
least `rear_cogs_len`; when the inner call fails, its error code is returned whatever the
current selection is. -/
theorem next_gear_invalid_gear_iff (config : drivetrain_config_t) (desired_ratio : FloatVal)
    (current_gears output_gears : gear_selection_t) :
    (∀ t, gear_selector_get_closest_under config desired_ratio output_gears
        = some (SUCCESS, t) →
      (fin 0).lt desired_ratio = true →
      ∃ code out, gear_selector_get_next_gear config desired_ratio current_gears output_gears
          = some (code, out) ∧
        (code = ERR_INVALID_GEAR ↔
          (current_gears.front_cog_idx ≥ config.front_cogs_len ∨
            current_gears.rear_cog_idx ≥ config.rear_cogs_len))) ∧
    (∀ err out, gear_selector_get_closest_under config desired_ratio output_gears
        = some (err, out) →
      err ≠ SUCCESS →
      gear_selector_get_next_gear config desired_ratio current_gears output_gears
        = some (err, out)) := by
  constructor
  · intro t ht hpos
    have hle := lt_zero_not_le_zero desired_ratio hpos
    unfold gear_selector_get_next_gear
    rw [ht]
    simp only [ne_eq, not_true_eq_false, if_false, hle, Bool.false_eq_true, ge_iff_le]
    by_cases hr : config.front_cogs_len ≤ current_gears.front_cog_idx ∨
        config.rear_cogs_len ≤ current_gears.rear_cog_idx
    · rw [if_pos hr]
      exact ⟨_, _, rfl, fun _ => hr, fun _ => rfl⟩
    · rw [if_neg hr]
      split_ifs <;>
        exact ⟨_, _, rfl, fun hc => (by cases hc), fun h => absurd h hr⟩
  · intro err out herr hne
    unfold gear_selector_get_next_gear
    rw [herr]
    simp only [ne_eq, hne, not_false_eq_true, if_true]

/-- C11 applied on the drivetrain of `main`: with desired ratio 1.6 the out-of-range
selection (3,0) gives `ERR_INVALID_GEAR`, and with desired ratio 1.0 the error of the inner
call is returned. -/
theorem next_gear_invalid_gear_iff_witness :
    (∃ code out, gear_selector_get_next_gear demo_config ratio_1_6
        { front_cog_idx := 3, rear_cog_idx := 0 } { front_cog_idx := 0, rear_cog_idx := 0 }
        = some (code, out) ∧
      (code = ERR_INVALID_GEAR ↔
        ((3 : Nat) ≥ demo_config.front_cogs_len ∨ (0 : Nat) ≥ demo_config.rear_cogs_len))) ∧
    gear_selector_get_next_gear demo_config (fin 1)
      { front_cog_idx := 3, rear_cog_idx := 0 } { front_cog_idx := 0, rear_cog_idx := 0 }
      = some ( ERR_INVALID_RATIO, { front_cog_idx := 0, rear_cog_idx := 0 }) :=
  ⟨(next_gear_invalid_gear_iff demo_config ratio_1_6
      { front_cog_idx := 3, rear_cog_idx := 0 } { front_cog_idx := 0, rear_cog_idx := 0 }).1
      { front_cog_idx := 0, rear_cog_idx := 1 } (by with_unfolding_all rfl)
      (by with_unfolding_all decide),
    (next_gear_invalid_gear_iff demo_config (fin 1)
      { front_cog_idx := 3, rear_cog_idx := 0 } { front_cog_idx := 0, rear_cog_idx := 0 }).2
      ERR_INVALID_RATIO { front_cog_idx := 0, rear_cog_idx := 0 }
      (by with_unfolding_all rfl) (by decide)⟩

/-- C12: for a validated configuration with at least one rear cog (whatever the cog sizes,
zero included) and a desired ratio that is `<= 0`, `gear_selector_get_next_gear` returns
`ERR_INVALID_RATIO` for every current selection, in range or not, and leaves the output
storage as it was. -/
theorem next_gear_nonpositive (config : drivetrain_config_t) (desired_ratio : FloatVal)
    (current_gears output_gears : gear_selection_t)
    (hvalid : validate_config config = SUCCESS) (hrear : 1 ≤ config.rear_cogs_len)
    (hnonpos : desired_ratio.le (fin 0) = true) :
    gear_selector_get_next_gear config desired_ratio current_gears output_gears
      = some ( ERR_INVALID_RATIO, output_gears) := by
  obtain ⟨st, -, heq⟩ := closest_under_eq config desired_ratio output_gears hvalid hrear
  by_cases hlt : desired_ratio.lt (cog_ratio (config.front_cogs.getD 0 0)
      (config.rear_cogs.getD (config.rear_cogs_len - 1) 0)) = true
  · rw [if_pos hlt] at heq
    unfold gear_selector_get_next_gear
    rw [heq]
    simp
  · rw [if_neg hlt] at heq
    have hkeep := closest_under_nonpos_keeps config desired_ratio output_gears st.2 hnonpos heq
    unfold gear_selector_get_next_gear
    rw [heq, hkeep]
    simp [hnonpos]

/-- C12 applied to a configuration with a zero-sized chainring and desired ratio 0, where
the inner call returns `SUCCESS` and the check on the sign of the desired ratio fails; the
current selection (5,5) is out of range. -/
theorem next_gear_nonpositive_witness :
    validate_config zero_front_config = SUCCESS ∧
    gear_selector_get_closest_under zero_front_config (fin 0)
      { front_cog_idx := 1, rear_cog_idx := 0 }
      = some (SUCCESS, { front_cog_idx := 1, rear_cog_idx := 0 }) ∧
    gear_selector_get_next_gear zero_front_config (fin 0)
      { front_cog_idx := 5, rear_cog_idx := 5 } { front_cog_idx := 1, rear_cog_idx := 0 }
      = some ( ERR_INVALID_RATIO, { front_cog_idx := 1, rear_cog_idx := 0 }) :=
  ⟨by decide, by with_unfolding_all rfl,
    next_gear_nonpositive zero_front_config (fin 0)
      { front_cog_idx := 5, rear_cog_idx := 5 } { front_cog_idx := 1, rear_cog_idx := 0 }
      (by decide) (by decide) (by with_unfolding_all decide)⟩

/-- C13, as stated, fails on the drivetrain of `main`: with desired ratio 1.6, the
out-of-range current selection (7,7) and output storage holding (5,5), the call returns
`ERR_INVALID_GEAR` and the output storage holds (0,1), the closest-under target. -/
theorem next_gear_failure_output_counterexample :
    gear_selector_get_next_gear demo_config ratio_1_6
      { front_cog_idx := 7, rear_cog_idx := 7 } { front_cog_idx := 5, rear_cog_idx := 5 }
      = some (ERR_INVALID_GEAR, { front_cog_idx := 0, rear_cog_idx := 1 }) ∧
    ({ front_cog_idx := 0, rear_cog_idx := 1 } : gear_selection_t)
      ≠ { front_cog_idx := 5, rear_cog_idx := 5 } := by
  refine ⟨by with_unfolding_all rfl, by decide⟩

/-- C13, amended: whenever `gear_selector_get_next_gear` returns a code other than `SUCCESS`
and other than `ERR_INVALID_GEAR` (an error of the inner closest-under call, or
`ERR_INVALID_RATIO` for a desired ratio that is `<= 0`), the output storage is as the caller
supplied it; whenever it returns `ERR_INVALID_GEAR`, the output storage holds what the inner
closest-under call, which returned `SUCCESS`, left there. -/
theorem next_gear_failure_output (config : drivetrain_config_t) (desired_ratio : FloatVal)
    (current_gears output_gears out : gear_selection_t) (code : errors_t)
    (hret : gear_selector_get_next_gear config desired_ratio current_gears output_gears
      = some (code, out))
    (hfail : code ≠ SUCCESS) :
    (code ≠ ERR_INVALID_GEAR → out = output_gears) ∧
    (code = ERR_INVALID_GEAR →
      gear_selector_get_closest_under config desired_ratio output_gears
        = some (SUCCESS, out)) := by
  unfold gear_selector_get_next_gear at hret
  cases hcu : gear_selector_get_closest_under config desired_ratio output_gears with
  | none =>
    rw [hcu] at hret
    cases hret
  | some r =>
    obtain ⟨rv, o2⟩ := r
    rw [hcu] at hret
    dsimp only at hret
    by_cases hrv : rv = SUCCESS
    · subst hrv
      rw [if_neg (by simp)] at hret
      by_cases hle : desired_ratio.le (fin 0) = true
      · rw [if_pos hle] at hret
        simp only [Option.some.injEq, Prod.mk.injEq] at hret
        obtain ⟨rfl, rfl⟩ := hret
        have := closest_under_nonpos_keeps config desired_ratio output_gears o2 hle hcu
        exact ⟨fun _ => this, fun h => (by cases h)⟩
      · rw [if_neg hle] at hret
        split_ifs at hret
        · simp only [Option.some.injEq, Prod.mk.injEq] at hret
          obtain ⟨rfl, rfl⟩ := hret
          exact ⟨fun h => absurd rfl h, fun _ => rfl⟩
        all_goals
          simp only [Option.some.injEq, Prod.mk.injEq] at hret
          exact absurd hret.1.symm hfail
    · rw [if_pos hrv] at hret
      simp only [Option.some.injEq, Prod.mk.injEq] at hret
      obtain ⟨rfl, rfl⟩ := hret
      obtain ⟨hout, hcodes⟩ := closest_under_failure config desired_ratio output_gears o2 rv
        hcu hrv
      refine ⟨fun _ => hout, fun h => ?_⟩
      rw [h] at hcodes
      rcases hcodes with hc | hc | hc <;> cases hc

/-- The amended C13 applied on the drivetrain of `main`: with desired ratio 1.0 the call
fails with `ERR_INVALID_RATIO` and the storage (5,5) is untouched; with desired ratio 1.6 and
the out-of-range current selection (7,7) it fails with `ERR_INVALID_GEAR` and the storage
holds (0,1), which the inner call left there. -/
theorem next_gear_failure_output_witness :
    gear_selector_get_next_gear demo_config (fin 1)
      { front_cog_idx := 1, rear_cog_idx := 3 } { front_cog_idx := 5, rear_cog_idx := 5 }
      = some ( ERR_INVALID_RATIO, { front_cog_idx := 5, rear_cog_idx := 5 }) ∧
    ({ front_cog_idx := 5, rear_cog_idx := 5 } : gear_selection_t)
      = { front_cog_idx := 5, rear_cog_idx := 5 } ∧
    gear_selector_get_next_gear demo_config ratio_1_6
      { front_cog_idx := 7, rear_cog_idx := 7 } { front_cog_idx := 5, rear_cog_idx := 5 }
      = some (ERR_INVALID_GEAR, { front_cog_idx := 0, rear_cog_idx := 1 }) ∧
    gear_selector_get_closest_under demo_config ratio_1_6
      { front_cog_idx := 5, rear_cog_idx := 5 }
      = some (SUCCESS, { front_cog_idx := 0, rear_cog_idx := 1 }) :=
  ⟨by with_unfolding_all rfl,
    (next_gear_failure_output demo_config (fin 1)
      { front_cog_idx := 1, rear_cog_idx := 3 } { front_cog_idx := 5, rear_cog_idx := 5 }
      { front_cog_idx := 5, rear_cog_idx := 5 } ERR_INVALID_RATIO
      (by with_unfolding_all rfl) (by decide)).1 (by decide),
    by with_unfolding_all rfl,
    (next_gear_failure_output demo_config ratio_1_6
      { front_cog_idx := 7, rear_cog_idx := 7 } { front_cog_idx := 5, rear_cog_idx := 5 }
      { front_cog_idx := 0, rear_cog_idx := 1 } ERR_INVALID_GEAR
      (by with_unfolding_all rfl) (by decide)).2 rfl⟩

/-- C14: whenever `gear_selector_get_closest_under` returns a code other than `SUCCESS`, the
code is `ERR_INVALID_COG_LEN`, `ERR_COGS_NOT_SORTED` or `ERR_INVALID_RATIO`, and the output
storage is exactly as the caller supplied it. -/
theorem closest_under_failure_output (config : drivetrain_config_t)
    (desired_ratio : FloatVal) (output_gears out : gear_selection_t) (code : errors_t)
    (hret : gear_selector_get_closest_under config desired_ratio output_gears
      = some (code, out))
    (hfail : code ≠ SUCCESS) :
    out = output_gears ∧
      (code = ERR_INVALID_COG_LEN ∨ code = ERR_COGS_NOT_SORTED ∨ code = ERR_INVALID_RATIO) := by
  unfold gear_selector_get_closest_under at hret
  dsimp only at hret
  by_cases hv : validate_config config = SUCCESS
  · rw [if_neg (not_not.mpr hv)] at hret
    split at hret
    · split_ifs at hret
      · simp only [Option.some.injEq, Prod.mk.injEq] at hret
        exact ⟨hret.2.symm, Or.inr (Or.inr hret.1.symm)⟩
      · split at hret
        · simp only [Option.some.injEq, Prod.mk.injEq] at hret
          exact absurd hret.1.symm hfail
        · cases hret
    · cases hret
  · rw [if_pos hv] at hret
    simp only [Option.some.injEq, Prod.mk.injEq] at hret
    refine ⟨hret.2.symm, ?_⟩
    rw [← hret.1]
    have hc := validate_config_eq config
    split_ifs at hc with h1 h2
    · exact Or.inl hc
    · exact Or.inr (Or.inl hc)
    · exact absurd hc hv

/-- C14 applied on the drivetrain of `main` with desired ratio 1.0 and output storage
holding (7,7). -/
theorem closest_under_failure_output_witness :
    gear_selector_get_closest_under demo_config (fin 1)
      { front_cog_idx := 7, rear_cog_idx := 7 }
      = some ( ERR_INVALID_RATIO, { front_cog_idx := 7, rear_cog_idx := 7 }) ∧
    ({ front_cog_idx := 7, rear_cog_idx := 7 } : gear_selection_t)
      = { front_cog_idx := 7, rear_cog_idx := 7 } ∧
    ( ERR_INVALID_RATIO = ERR_INVALID_COG_LEN ∨ ERR_INVALID_RATIO = ERR_COGS_NOT_SORTED ∨
      ERR_INVALID_RATIO = ERR_INVALID_RATIO) :=
  ⟨by with_unfolding_all rfl,
    closest_under_failure_output demo_config (fin 1)
      { front_cog_idx := 7, rear_cog_idx := 7 } { front_cog_idx := 7, rear_cog_idx := 7 }
      ERR_INVALID_RATIO (by with_unfolding_all rfl) (by decide)⟩

/-! ## The update test at large desired ratios -/

/-- C15 at a failing input: on the drivetrain of `main`, whose cog sizes are positive, with
desired ratio 2^25 = 33554432 every in-range pair has a ratio strictly below the desired
ratio, and the greatest of these ratios is 44/16 at (2,0); yet the call returns (0,0), that
is 30/16, a strictly smaller ratio. The difference `desired - ratio` rounds to 33554430 for
every pair, so after (0,0) has replaced the sentinel -1 (for which the difference rounds to
33554432) the update test `(desired - ratio) < (desired - best)` is false for every later
pair, also for `ratio` = 44/16 and `best` = 30/16 where `best < ratio`. For the desired
ratio 1.6 the call returns (0,1), that is 30/19. -/
theorem closest_under_misses_greatest (output_gears : gear_selection_t) :
    validate_config demo_config = SUCCESS ∧ rear_cogs_positive demo_config ∧
    (∀ i, i < demo_config.front_cogs_len → 0 < demo_config.front_cogs.getD i 0) ∧
    in_range demo_config { front_cog_idx := 2, rear_cog_idx := 0 } ∧
    (∀ q, in_range demo_config q →
      (selection_ratio demo_config q).lt (fin 33554432) = true ∧
      (selection_ratio demo_config q).le
        (selection_ratio demo_config { front_cog_idx := 2, rear_cog_idx := 0 }) = true ∧
      (fin 33554432).sub (selection_ratio demo_config q) = fin 33554430) ∧
    (fin 33554432).sub INVALID_RATIO = fin 33554432 ∧
    gear_selector_get_closest_under demo_config (fin 33554432) output_gears
      = some (SUCCESS, { front_cog_idx := 0, rear_cog_idx := 0 }) ∧
    (selection_ratio demo_config { front_cog_idx := 0, rear_cog_idx := 0 }).lt
      (selection_ratio demo_config { front_cog_idx := 2, rear_cog_idx := 0 }) = true ∧
    ((fin 33554432).sub
        (selection_ratio demo_config { front_cog_idx := 2, rear_cog_idx := 0 })).lt
      ((fin 33554432).sub
        (selection_ratio demo_config { front_cog_idx := 0, rear_cog_idx := 0 })) = false ∧
    gear_selector_get_closest_under demo_config ratio_1_6 output_gears
      = some (SUCCESS, { front_cog_idx := 0, rear_cog_idx := 1 }) := by
  refine ⟨by decide, ?_, ?_, by decide, ?_, by with_unfolding_all rfl, by with_unfolding_all rfl,
    by with_unfolding_all decide, by with_unfolding_all decide, by with_unfolding_all rfl⟩
  · intro j hj
    have h4 : j < 4 := hj
    interval_cases j <;> decide
  · intro i hi
    have h3 : i < 3 := hi
    interval_cases i <;> decide
  · intro q hq
    obtain ⟨a, b⟩ := q
    have ha : a < 3 := hq.1
    have hb : b < 4 := hq.2
    interval_cases a <;> interval_cases b <;>
      exact ⟨by with_unfolding_all decide, by with_unfolding_all decide,
        by with_unfolding_all rfl⟩

/-! ## The no-candidate case -/

/-- C16: for a validated configuration with at least one rear cog, if the desired ratio is
at least the `float` quotient `front_cogs[0] / rear_cogs[rear_cogs_len - 1]` and no in-range
pair has a `float` ratio strictly below it, the call returns `SUCCESS` and the output storage
is exactly as the caller supplied it. With at least one front cog this happens only when the
desired ratio equals that smallest ratio; and with positive rear cog sizes it does happen
then: that smallest ratio passes the floor check and no in-range pair is strictly below
it. -/
theorem closest_under_no_candidate (config : drivetrain_config_t) (desired_ratio : FloatVal)
    (output_gears : gear_selection_t)
    (hvalid : validate_config config = SUCCESS) (hrear : 1 ≤ config.rear_cogs_len)
    (hfloor : (selection_ratio config
      { front_cog_idx := 0, rear_cog_idx := config.rear_cogs_len - 1 }).le desired_ratio
        = true)
    (hnone : ∀ q, in_range config q → (selection_ratio config q).lt desired_ratio = false) :
    gear_selector_get_closest_under config desired_ratio output_gears
      = some (SUCCESS, output_gears) ∧
    (1 ≤ config.front_cogs_len →
      desired_ratio = selection_ratio config
        { front_cog_idx := 0, rear_cog_idx := config.rear_cogs_len - 1 }) ∧
    (rear_cogs_positive config →
      (selection_ratio config
        { front_cog_idx := 0, rear_cog_idx := config.rear_cogs_len - 1 }).le
        (selection_ratio config
          { front_cog_idx := 0, rear_cog_idx := config.rear_cogs_len - 1 }) = true ∧
      ∀ q, in_range config q →
        (selection_ratio config q).lt (selection_ratio config
          { front_cog_idx := 0, rear_cog_idx := config.rear_cogs_len - 1 }) = false) := by
  have hlen := (validate_config_success_iff config).mp hvalid
  refine ⟨?_, ?_, ?_⟩
  · obtain ⟨st, hst, heq⟩ := closest_under_eq config desired_ratio output_gears hvalid hrear
    have hpass := le_not_lt _ _ hfloor
    unfold selection_ratio at hpass
    dsimp only at hpass
    rw [hpass] at heq
    rw [search_front_keep config desired_ratio hlen.1 hlen.2.1 hnone] at hst
    cases hst
    simpa using heq
  · intro hfront
    have h0 := hnone { front_cog_idx := 0, rear_cog_idx := config.rear_cogs_len - 1 }
      ⟨by dsimp only; omega, by dsimp only; omega⟩
    revert hfloor h0
    generalize selection_ratio config
      { front_cog_idx := 0, rear_cog_idx := config.rear_cogs_len - 1 } = m
    intro hfloor h0
    cases m <;> cases desired_ratio <;>
      simp_all [FloatVal.le, FloatVal.lt]
    exact le_antisymm h0 hfloor
  · intro hpos
    refine ⟨?_, fun q hq => le_not_lt _ _ (selection_ratio_bounds config hvalid hpos q hq).1⟩
    unfold selection_ratio
    exact cog_ratio_mono _ _ _ _ (le_refl _) (le_refl _) (hpos _ (by dsimp only; omega))

/-- C16 applied to the drivetrain of `main` with desired ratio `30 / (float)28`, its
smallest `float` ratio, and output storage holding (7,7). -/
theorem closest_under_no_candidate_witness :
    gear_selector_get_closest_under demo_config ratio_30_28
      { front_cog_idx := 7, rear_cog_idx := 7 }
      = some (SUCCESS, { front_cog_idx := 7, rear_cog_idx := 7 }) :=
  (closest_under_no_candidate demo_config ratio_30_28
    { front_cog_idx := 7, rear_cog_idx := 7 } (by decide) (by decide)
    (by with_unfolding_all decide)
    (by
      intro q hq
      obtain ⟨a, b⟩ := q
      have ha : a < 3 := hq.1
      have hb : b < 4 := hq.2
      interval_cases a <;> interval_cases b <;> with_unfolding_all decide)).1

/-! ## Index range and progress of `gear_selector_get_next_gear` -/

/-- C17 at a failing input: on the drivetrain of `main` with desired ratio 1e10, strictly
above the smallest ratio 30/28, the difference `desired - ratio` rounds to 1e10 for every
pair, as does `desired - (-1)` for the sentinel, so the update test never holds and the inner
call returns `SUCCESS` without writing the output storage, which holds (7,7); from the
in-range current selection (2,3) the call then returns `SUCCESS` with (3,3), whose front
index is not below `front_cogs_len = 3`. -/
theorem next_gear_leaves_range :
    validate_config demo_config = SUCCESS ∧
    (selection_ratio demo_config { front_cog_idx := 0, rear_cog_idx := 3 }).lt
      (fin 10000000000) = true ∧
    in_range demo_config { front_cog_idx := 2, rear_cog_idx := 3 } ∧
    (∀ q, in_range demo_config q →
      (fin 10000000000).sub (selection_ratio demo_config q) = fin 10000000000) ∧
    (fin 10000000000).sub INVALID_RATIO = fin 10000000000 ∧
    gear_selector_get_closest_under demo_config (fin 10000000000)
      { front_cog_idx := 7, rear_cog_idx := 7 }
      = some (SUCCESS, { front_cog_idx := 7, rear_cog_idx := 7 }) ∧
    gear_selector_get_next_gear demo_config (fin 10000000000)
      { front_cog_idx := 2, rear_cog_idx := 3 } { front_cog_idx := 7, rear_cog_idx := 7 }
      = some (SUCCESS, { front_cog_idx := 3, rear_cog_idx := 3 }) ∧
    ¬ in_range demo_config { front_cog_idx := 3, rear_cog_idx := 3 } := by
  refine ⟨by decide, by with_unfolding_all decide, by decide, ?_, by with_unfolding_all rfl,
    by with_unfolding_all rfl, by with_unfolding_all rfl, by decide⟩
  intro q hq
  obtain ⟨a, b⟩ := q
  have ha : a < 3 := hq.1
  have hb : b < 4 := hq.2
  interval_cases a <;> interval_cases b <;> with_unfolding_all rfl

/-- One successful call away from the target moves exactly one step closer to it: for a
validated configuration, a desired ratio that is not `<= 0`, the target `t` left by the
inner closest-under call and an in-range current selection different from `t`, the returned
selection is one index step nearer to `t`. -/
theorem next_gear_progress (config : drivetrain_config_t) (desired_ratio : FloatVal)
    (c t o : gear_selection_t) (hv : validate_config config = SUCCESS)
    (hle : desired_ratio.le (fin 0) = false)
    (ht : gear_selector_get_closest_under config desired_ratio o = some (SUCCESS, t))
    (hc : in_range config c) (hne : c ≠ t) :
    ∃ n, gear_selector_get_next_gear config desired_ratio c o = some (SUCCESS, n) ∧
      shift_distance n t + 1 = shift_distance c t :=
  ⟨_, next_gear_eq_shift config desired_ratio c t o hv hle ht hc,
    (shift_toward_distance c t hne).2⟩

theorem shift_distance_eq_zero (p q : gear_selection_t) (h : shift_distance p q = 0) :
    p = q := by
  cases p with
  | mk a b =>
    cases q with
    | mk x y =>
      unfold shift_distance at h
      dsimp only at h
      rw [gear_selection_t.mk.injEq]
      omega

/-- With an in-range target `t` that every closest-under call returns, `k` calls from an
in-range selection `c`, for `k` up to the number of index steps between `c` and `t`, all
succeed and end exactly `k` steps nearer to `t`; so `t` is reached after exactly that number
of calls and not before. -/
theorem next_gear_iterate_exact (config : drivetrain_config_t) (d : ℚ)
    (t : gear_selection_t) (hv : validate_config config = SUCCESS) (hd : 0 < d)
    (ht : in_range config t)
    (htarget : ∀ o, gear_selector_get_closest_under config (fin d) o = some (SUCCESS, t))
    (k : Nat) (c o : gear_selection_t) (hc : in_range config c)
    (hk : k ≤ shift_distance c t) :
    ∃ s, next_gear_iterate config (fin d) k c o = some (SUCCESS, s) ∧
      in_range config s ∧ shift_distance s t + k = shift_distance c t := by
  have hle : (fin d).le (fin 0) = false := by
    simp only [FloatVal.le, decide_eq_false_iff_not, not_le]
    exact hd
  induction k generalizing c o with
  | zero => exact ⟨c, rfl, hc, rfl⟩
  | succ k ih =>
    have hne : c ≠ t := by
      rintro rfl
      unfold shift_distance at hk
      omega
    have hs := shift_toward_distance c t hne
    obtain ⟨s, h1, h2, h3⟩ := ih (shift_toward c t) (shift_toward c t)
      (shift_toward_in_range config c t hc ht) (by omega)
    refine ⟨s, ?_, h2, by omega⟩
    unfold next_gear_iterate
    rw [next_gear_eq_shift config (fin d) c t o hv hle (htarget o) hc]
    simpa using h1

/-- C18 at a failing input: on `two_ring_config` with desired ratio 2.0 and output storage
holding (7,7), the closest-under target is t = (7,7), thirteen index steps from the
in-range current selection (1,0). The first call returns (2,0), twelve steps from t, but
the second call fails with `ERR_INVALID_GEAR`, so t is not reached after thirteen calls. -/
theorem next_gear_target_not_reached :
    validate_config two_ring_config = SUCCESS ∧
    gear_selector_get_closest_under two_ring_config (fin 2)
      { front_cog_idx := 7, rear_cog_idx := 7 }
      = some (SUCCESS, { front_cog_idx := 7, rear_cog_idx := 7 }) ∧
    in_range two_ring_config { front_cog_idx := 1, rear_cog_idx := 0 } ∧
    shift_distance { front_cog_idx := 1, rear_cog_idx := 0 }
      { front_cog_idx := 7, rear_cog_idx := 7 } = 13 ∧
    gear_selector_get_next_gear two_ring_config (fin 2)
      { front_cog_idx := 1, rear_cog_idx := 0 } { front_cog_idx := 7, rear_cog_idx := 7 }
      = some (SUCCESS, { front_cog_idx := 2, rear_cog_idx := 0 }) ∧
    shift_distance { front_cog_idx := 2, rear_cog_idx := 0 }
      { front_cog_idx := 7, rear_cog_idx := 7 } = 12 ∧
    gear_selector_get_next_gear two_ring_config (fin 2)
      { front_cog_idx := 2, rear_cog_idx := 0 } { front_cog_idx := 7, rear_cog_idx := 7 }
      = some (ERR_INVALID_GEAR, { front_cog_idx := 7, rear_cog_idx := 7 }) ∧
    next_gear_iterate two_ring_config (fin 2) 13
      { front_cog_idx := 1, rear_cog_idx := 0 } { front_cog_idx := 7, rear_cog_idx := 7 }
      = some (ERR_INVALID_GEAR, { front_cog_idx := 2, rear_cog_idx := 0 }) := by
  refine ⟨by decide, by with_unfolding_all rfl, by decide, by decide,
    by with_unfolding_all rfl, by decide, by with_unfolding_all rfl,
    by with_unfolding_all rfl⟩

/-! ## Monotonicity in the desired ratio -/

/-- C19 at a failing input: on the drivetrain of `main`, whose cog sizes are positive, the
desired ratios 5 and 2^25 = 33554432 are both strictly above the smallest ratio 30/28; the
call for 5 returns (2,0), that is 44/16, and the call for 2^25 returns (0,0), that is 30/16,
a smaller ratio. -/
theorem closest_under_not_monotone (o1 o2 : gear_selection_t) :
    validate_config demo_config = SUCCESS ∧ rear_cogs_positive demo_config ∧
    (∀ i, i < demo_config.front_cogs_len → 0 < demo_config.front_cogs.getD i 0) ∧
    (fin 5).le (fin 33554432) = true ∧
    (selection_ratio demo_config { front_cog_idx := 0, rear_cog_idx := 3 }).lt (fin 5)
      = true ∧
    (selection_ratio demo_config { front_cog_idx := 0, rear_cog_idx := 3 }).lt
      (fin 33554432) = true ∧
    gear_selector_get_closest_under demo_config (fin 5) o1
      = some (SUCCESS, { front_cog_idx := 2, rear_cog_idx := 0 }) ∧
    gear_selector_get_closest_under demo_config (fin 33554432) o2
      = some (SUCCESS, { front_cog_idx := 0, rear_cog_idx := 0 }) ∧
    (selection_ratio demo_config { front_cog_idx := 2, rear_cog_idx := 0 }).le
      (selection_ratio demo_config { front_cog_idx := 0, rear_cog_idx := 0 }) = false := by
  refine ⟨by decide, ?_, ?_, by with_unfolding_all decide, by with_unfolding_all decide,
    by with_unfolding_all decide, by with_unfolding_all rfl, by with_unfolding_all rfl,
    by with_unfolding_all decide⟩
  · intro j hj
    have h4 : j < 4 := hj
    interval_cases j <;> decide
  · intro i hi
    have h3 : i < 3 := hi
    interval_cases i <;> decide

/-! ## Array reads of `gear_selector_get_closest_under` -/

/-- For a validated configuration every array read of the call lies inside the 13 slots
exactly when there is at least one rear cog; the front count may be zero. -/
theorem closest_under_defined_iff (config : drivetrain_config_t) (d : FloatVal)
    (o : gear_selection_t) (hv : validate_config config = SUCCESS) :
    (∃ r, gear_selector_get_closest_under config d o = some r) ↔
      1 ≤ config.rear_cogs_len := by
  constructor
  · rintro ⟨⟨code, out⟩, h⟩
    by_cases hc : code = SUCCESS
    · subst hc
      exact (closest_under_success config d o out h).2.1
    · have := (closest_under_failure config d o out code h hc).2
      unfold gear_selector_get_closest_under at h
      dsimp only at h
      rw [if_neg (not_not.mpr hv)] at h
      by_contra hr
      have hz : config.rear_cogs_len = 0 := by omega
      have hread : read_cog config.rear_cogs (((0 : Nat) : Int) - 1) = none := by
        unfold read_cog
        rw [if_neg (by omega)]
      rw [hz, hread] at h
      split at h <;> simp_all
  · intro hr
    obtain ⟨st, -, heq⟩ := closest_under_eq config d o hv hr
    rw [heq]
    split_ifs <;> exact ⟨_, rfl⟩

/-- C20 at a failing input: `no_rear_config`, with one chainring and `rear_cogs_len = 0`,
passes validation, and the floor check of the call then reads `rear_cogs[0 - 1]`, index -1,
which lies outside the array; the call has no defined result, whatever the desired ratio
and the output storage. -/
theorem closest_under_reads_before_array (desired_ratio : FloatVal)
    (output_gears : gear_selection_t) :
    validate_config no_rear_config = SUCCESS ∧
    (no_rear_config.rear_cogs_len : Int) - 1 = -1 ∧
    read_cog no_rear_config.rear_cogs ((no_rear_config.rear_cogs_len : Int) - 1) = none ∧
    gear_selector_get_closest_under no_rear_config desired_ratio output_gears = none := by
  refine ⟨by decide, by decide, by decide, ?_⟩
  unfold gear_selector_get_closest_under
  have hv : validate_config no_rear_config = SUCCESS := by decide
  have h0 : read_cog no_rear_config.front_cogs 0 = some 30 := by decide
  have h1 : read_cog no_rear_config.rear_cogs ((no_rear_config.rear_cogs_len : Int) - 1)
      = none := by decide
  simp only [hv, ne_eq, not_true_eq_false, if_false, h0, h1]

end GearSelector
